import Mathlib

/-!
Verification development for the BabyAGI predictive-analytics core:
a shallow embedding of the prediction engine (src/lib/prediction-utils.ts)
and the scenario simulator (src/lib/scenario-utils.ts), together with
theorems settling the specification claims about them.

Modelling conventions:
- JavaScript numbers are modelled as exact rationals wherever the code can
  only produce finite values; where division by zero or 0/0 is reachable
  (velocity metrics, the confidence score), values live in the type JsNum,
  which adds NaN and the two infinities with IEEE-754 semantics.
- JavaScript truthiness tests on numbers (such as the source tests
  "task.priority", "t.completedAt") are modelled as inequality with 0, and
  on optional strings as presence of a non-empty string.
- The standard deviation of the similar-task durations is irrational in
  general, so a task prediction carries the confidence score symbolically
  (ConfData) as the data the source computes it from; ConfData.value is the
  real-valued score of prediction-utils lines 128-131, and ConfData.ltHalf
  is a rational decision procedure for the comparison "confidenceScore < 0.5",
  proved correct against ConfData.value (ConfData.ltHalf_iff_value).
- Array.prototype.sort with the comparator (a, b) => b.similarity - a.similarity
  is a stable descending sort; it is modelled by insertion sort with the
  (decidable) squared comparison of similarities, which agrees with the real
  comparison on every list the code sorts (all elements have already passed
  the 0.3 positivity threshold).
-/

namespace BabyG

/-- JavaScript number with the IEEE-754 special values reachable in this code:
NaN, positive and negative infinity, or a finite value drawn from a linear
ordered field (ℚ for the computable pipeline, ℝ for the confidence score). -/
inductive JsNum (α : Type) where
  | nan : JsNum α
  | pinf : JsNum α
  | ninf : JsNum α
  | fin (x : α) : JsNum α
deriving DecidableEq

namespace JsNum

variable {α : Type} [LinearOrderedField α]

/-- IEEE-754 negation. -/
def neg : JsNum α → JsNum α
  | nan => nan
  | pinf => ninf
  | ninf => pinf
  | fin a => fin (-a)

/-- IEEE-754 addition: NaN propagates, opposite infinities give NaN. -/
def add : JsNum α → JsNum α → JsNum α
  | nan, _ => nan
  | _, nan => nan
  | pinf, ninf => nan
  | ninf, pinf => nan
  | pinf, _ => pinf
  | _, pinf => pinf
  | ninf, _ => ninf
  | _, ninf => ninf
  | fin a, fin b => fin (a + b)

/-- IEEE-754 subtraction, a - b = a + (-b). -/
def sub (a b : JsNum α) : JsNum α := a.add b.neg

/-- IEEE-754 multiplication: NaN propagates, infinity times zero is NaN. -/
def mul : JsNum α → JsNum α → JsNum α
  | nan, _ => nan
  | _, nan => nan
  | pinf, pinf => pinf
  | pinf, ninf => ninf
  | ninf, pinf => ninf
  | ninf, ninf => pinf
  | pinf, fin b => if b = 0 then nan else if 0 < b then pinf else ninf
  | fin a, pinf => if a = 0 then nan else if 0 < a then pinf else ninf
  | ninf, fin b => if b = 0 then nan else if 0 < b then ninf else pinf
  | fin a, ninf => if a = 0 then nan else if 0 < a then ninf else pinf
  | fin a, fin b => fin (a * b)

/-- IEEE-754 division (the model has a single unsigned zero, treated as +0):
0/0 is NaN, x/0 is a sign-matching infinity for x not 0, finite/infinite is 0. -/
def div : JsNum α → JsNum α → JsNum α
  | nan, _ => nan
  | _, nan => nan
  | pinf, pinf => nan
  | pinf, ninf => nan
  | ninf, pinf => nan
  | ninf, ninf => nan
  | pinf, fin b => if 0 ≤ b then pinf else ninf
  | ninf, fin b => if 0 ≤ b then ninf else pinf
  | fin _, pinf => fin 0
  | fin _, ninf => fin 0
  | fin a, fin b =>
    if b = 0 then (if a = 0 then nan else if 0 < a then pinf else ninf)
    else fin (a / b)

/-- Math.max on two arguments: NaN absorbs, infinities order as expected. -/
def jmax : JsNum α → JsNum α → JsNum α
  | nan, _ => nan
  | _, nan => nan
  | pinf, _ => pinf
  | _, pinf => pinf
  | ninf, b => b
  | a, ninf => a
  | fin a, fin b => fin (Max.max a b)

/-- JavaScript strict comparison a < b: false whenever either side is NaN. -/
def lt : JsNum α → JsNum α → Prop
  | nan, _ => False
  | _, nan => False
  | ninf, ninf => False
  | ninf, _ => True
  | _, ninf => False
  | pinf, _ => False
  | fin _, pinf => True
  | fin a, fin b => a < b

/-- JavaScript comparison a <= b: false whenever either side is NaN. -/
def le : JsNum α → JsNum α → Prop
  | nan, _ => False
  | _, nan => False
  | ninf, _ => True
  | _, ninf => False
  | _, pinf => True
  | pinf, _ => False
  | fin a, fin b => a ≤ b

/-- A JsNum is finite when it is neither NaN nor an infinity. -/
def isFinite : JsNum α → Prop
  | fin _ => True
  | _ => False

end JsNum

/-- ASCII lowering of one character, as String.prototype.toLowerCase acts on
the ASCII category names used by the source. -/
def lowerChar (c : Char) : Char :=
  if c.isUpper then Char.ofNat (c.toNat + 32) else c

/-- ASCII lowering of a string (category.toLowerCase() in the source). -/
def lowerString (s : String) : String := ⟨s.data.map lowerChar⟩

/-- Agent roles, the closed set from components/BabyAGI.tsx. -/
inductive AgentRole where
  | developer | designer | researcher | manager | analyst | general
deriving DecidableEq

/-- Task status enum from components/BabyAGI.tsx. -/
inductive TaskStatus where
  | pending | executing | completed
deriving DecidableEq, BEq

/-- Objective status enum from components/BabyAGI.tsx. -/
inductive ObjectiveStatus where
  | active | paused | completed
deriving DecidableEq, BEq

/-- Task record from components/BabyAGI.tsx. Timestamps are epoch
milliseconds as rationals; the optional subtasks array is modelled as a
plain list because every read in scope (subtasks?.length || 0, and the
guard subtasks && subtasks.length > 0) identifies an absent array with an
empty one. The display-only fields result, estimatedTime, parentId and
isCollapsed are carried for shape fidelity but never read by the core. -/
inductive Task where
  | mk (id : String) (title : String) (status : TaskStatus) (priority : ℚ)
      (createdAt : ℚ) (completedAt : Option ℚ) (result : Option String)
      (category : Option String) (estimatedTime : Option String)
      (subtasks : List Task) (parentId : Option String)
      (isCollapsed : Option Bool) : Task

def Task.id : Task → String
  | .mk i _ _ _ _ _ _ _ _ _ _ _ => i

def Task.title : Task → String
  | .mk _ t _ _ _ _ _ _ _ _ _ _ => t

def Task.status : Task → TaskStatus
  | .mk _ _ s _ _ _ _ _ _ _ _ _ => s

def Task.priority : Task → ℚ
  | .mk _ _ _ p _ _ _ _ _ _ _ _ => p

def Task.createdAt : Task → ℚ
  | .mk _ _ _ _ c _ _ _ _ _ _ _ => c

def Task.completedAt : Task → Option ℚ
  | .mk _ _ _ _ _ c _ _ _ _ _ _ => c

def Task.category : Task → Option String
  | .mk _ _ _ _ _ _ _ c _ _ _ _ => c

def Task.subtasks : Task → List Task
  | .mk _ _ _ _ _ _ _ _ _ s _ _ => s

/-- Copy of a task with its priority replaced: the source builds it by
spread syntax from the old task, overriding the priority field. -/
def Task.setPriority : Task → ℚ → Task
  | .mk i t s _ c ca r cat e st p ic, newPriority =>
    .mk i t s newPriority c ca r cat e st p ic

/-- Objective record from components/BabyAGI.tsx. -/
structure Objective where
  id : String
  title : String
  description : String
  tasks : List Task
  status : ObjectiveStatus
  createdAt : ℚ
  aiInsights : Option String
  agentRole : Option AgentRole

namespace PredictionUtils

/-- Symbolic form of the confidence score a prediction carries: either the
fixed heuristic confidence, or the data (match count, average duration,
population variance of the durations) the similarity path computes it from.
The numeric score is recovered by ConfData.value. -/
inductive ConfData where
  | heuristic : ConfData
  | similar (matchCount : ℕ) (avgDuration : ℚ) (variance : ℚ) : ConfData
deriving DecidableEq

/-- Numeric value of the confidence score, prediction-utils lines 128-131:
heuristic confidence is 0.4; otherwise the average of
sampleConfidence = min(matchCount / 10, 1) and
varianceConfidence = max(0, 1 - stdDev / avgDuration), computed with
JavaScript number semantics (0/0 gives NaN, positive/0 gives infinity). -/
noncomputable def ConfData.value : ConfData → JsNum ℝ
  | .heuristic => .fin 0.4
  | .similar matchCount avgDuration variance =>
    let stdDev : ℝ := Real.sqrt (variance : ℝ)
    let sampleConfidence : JsNum ℝ := .fin (min ((matchCount : ℝ) / 10) 1)
    let varianceConfidence : JsNum ℝ :=
      JsNum.jmax (.fin 0) (JsNum.sub (.fin 1) (JsNum.div (.fin stdDev) (.fin (avgDuration : ℝ))))
    JsNum.div (JsNum.add sampleConfidence varianceConfidence) (.fin 2)

/-- Rational decision procedure for the source comparison
"prediction.confidenceScore < 0.5". Correct with respect to ConfData.value
whenever the variance is non-negative (ConfData.ltHalf_iff_value below);
every ConfData the pipeline builds has a non-negative variance. -/
def ConfData.ltHalf : ConfData → Bool
  | .heuristic => true
  | .similar matchCount avgDuration variance =>
    if avgDuration = 0 then
      if variance = 0 then false else decide (matchCount < 10)
    else if avgDuration < 0 then false
    else decide (matchCount < 10) &&
      decide ((min ((matchCount : ℚ) / 10) 1) ^ 2 * avgDuration ^ 2 < variance)

/-- TaskPrediction record (prediction-utils lines 3-8); the confidence score
is carried symbolically, see ConfData. -/
structure TaskPrediction where
  estimatedDuration : ℚ
  confidenceScore : ConfData
  factors : List String
  similarTaskCount : ℕ
deriving DecidableEq

/-- Feature vector plus display labels (prediction-utils extractTaskFeatures). -/
structure TaskFeatures where
  features : List ℚ
  labels : List String

/-- Complexity of a known category name, case-insensitively; unknown names
default to 4 (prediction-utils getCategoryComplexity: complexityMap[lc] || 4,
every mapped value being truthy). -/
def getCategoryComplexity (category : String) : ℚ :=
  match lowerString category with
  | "research" => 4
  | "planning" => 3
  | "execution" => 6
  | "testing" => 5
  | "documentation" => 2
  | "optimization" => 7
  | _ => 4

/-- Feature extraction (prediction-utils extractTaskFeatures). The source
reads task.priority || 5 (5 when the priority is falsy, that is 0) and
task.category ? getCategoryComplexity(task.category) : 3 (3 when the
category is absent or empty, the falsy strings). -/
def extractTaskFeatures (task : Task) : TaskFeatures :=
  { features :=
      [ (task.title.length : ℚ),
        (if task.priority ≠ 0 then task.priority else 5),
        (match task.category with
          | some c => if c ≠ "" then getCategoryComplexity c else 3
          | none => 3),
        (task.subtasks.length : ℚ) * 2 ],
    labels := ["titleLength", "priority", "categoryComplexity", "subtaskCount"] }

/-- Speed multiplier per agent role; an absent role falls back to general
(prediction-utils getAgentSpeedMultiplier: multipliers[role || general]). -/
def getAgentSpeedMultiplier (role : Option AgentRole) : ℚ :=
  match role.getD .general with
  | .developer => 0.9
  | .designer => 1.1
  | .researcher => 1.3
  | .manager => 0.8
  | .analyst => 1.0
  | .general => 1.0

/-- Dot product of two feature vectors (the reduce in calculateSimilarity;
the source only reaches it after checking the lengths agree). -/
def dotProduct (f1 f2 : List ℚ) : ℚ :=
  (List.zipWith (fun a b => a * b) f1 f2).sum

/-- Squared magnitude of a feature vector (the source takes its square root). -/
def magnitudeSq (f : List ℚ) : ℚ := (f.map (fun x => x * x)).sum

/-- Cosine similarity (prediction-utils calculateSimilarity): zero on
mismatched lengths or when either magnitude is zero, otherwise the dot
product over the product of the magnitudes. -/
noncomputable def calculateSimilarity (features1 features2 : List ℚ) : ℝ :=
  if features1.length ≠ features2.length then 0
  else
    let magnitude1 : ℝ := Real.sqrt (magnitudeSq features1)
    let magnitude2 : ℝ := Real.sqrt (magnitudeSq features2)
    if magnitude1 = 0 ∨ magnitude2 = 0 then 0
    else (dotProduct features1 features2 : ℝ) / (magnitude1 * magnitude2)

/-- One entry of the scored historical-task list the similarity path builds:
the task together with the exact data determining its similarity to the
current task (dot product and squared own magnitude; the squared magnitude
of the current feature vector is shared by all entries). -/
structure ScoredTask where
  task : Task
  dot : ℚ
  magSq : ℚ

/-- Decides "similarity > 0.3" for a scored entry against the shared squared
magnitude of the current feature vector, by squaring out the roots:
for vectors of equal length the similarity exceeds 3/10 iff both magnitudes
are non-zero, the dot product is positive, and 9 (a b) < 100 dot^2.
Proved correct against calculateSimilarity in simThreshold_correct. -/
def ScoredTask.aboveThreshold (item : ScoredTask) (magSqCur : ℚ) : Bool :=
  decide (item.magSq ≠ 0) && decide (magSqCur ≠ 0) && decide (0 < item.dot) &&
    decide (9 * (item.magSq * magSqCur) < 100 * item.dot ^ 2)

/-- Sort relation for the descending stable sort of scored entries
(the source comparator (a, b) => b.similarity - a.similarity): a may come
before b when the similarity of a is at least that of b. On entries past the
0.3 threshold (positive dot products and magnitudes) this is equivalent to
the squared comparison below, which keeps the sort decidable. -/
def ScoredTask.simGe (a b : ScoredTask) : Prop :=
  b.dot ^ 2 * a.magSq ≤ a.dot ^ 2 * b.magSq

instance : DecidableRel ScoredTask.simGe := fun a b => by
  unfold ScoredTask.simGe; infer_instance

/-- Filter used on the historical corpus (prediction-utils line 87):
status completed, and truthy completion and creation timestamps. -/
def hasTimingData (t : Task) : Bool :=
  t.status == .completed && decide (t.completedAt.getD 0 ≠ 0) &&
    decide (t.createdAt ≠ 0)

/-- Per-category duration multiplier of the heuristic, case-insensitively
(the categoryMultipliers record of getHeuristicEstimate with its fallback
categoryMultipliers[lc] || 1.3; every mapped value is truthy). -/
def categoryMultipliers (c : String) : ℚ :=
  match lowerString c with
  | "research" => 1.5
  | "planning" => 1.2
  | "execution" => 1.8
  | "testing" => 1.4
  | "documentation" => 1.0
  | "optimization" => 2.0
  | _ => 1.3

/-- Heuristic estimation when historical data is insufficient
(prediction-utils getHeuristicEstimate), mirroring the sequential updates of
baseDuration in the source. -/
def getHeuristicEstimate (task : Task) (agentRole : Option AgentRole) : TaskPrediction :=
  let baseDuration : ℚ := 180000
  let baseDuration := baseDuration + (task.title.length : ℚ) * 50
  let baseDuration :=
    if task.priority ≠ 0 then baseDuration + (11 - task.priority) * 30000 else baseDuration
  let baseDuration :=
    match task.category with
    | some c => if c ≠ "" then baseDuration * categoryMultipliers c else baseDuration
    | none => baseDuration
  let baseDuration :=
    if 0 < task.subtasks.length then baseDuration * (1 + (task.subtasks.length : ℚ) * 0.3)
    else baseDuration
  let baseDuration := baseDuration * getAgentSpeedMultiplier agentRole
  { estimatedDuration := baseDuration,
    confidenceScore := .heuristic,
    factors := ["Heuristic estimation", "Insufficient historical data"],
    similarTaskCount := 0 }

/-- Scored, thresholded, sorted and truncated similar-task list of
predictTaskCompletionTime (source lines 100-108): score every completed
historical task against the current feature vector, keep those with
similarity above 0.3, sort descending by similarity (stably, as
Array.prototype.sort with the comparator b.similarity - a.similarity), and
take the first 10. -/
def similarTasksOf (task : Task) (historicalTasks : List Task) : List ScoredTask :=
  let currentFeatures := (extractTaskFeatures task).features
  let scored : List ScoredTask := (historicalTasks.filter hasTimingData).map
    (fun historicalTask =>
      { task := historicalTask,
        dot := dotProduct (extractTaskFeatures historicalTask).features currentFeatures,
        magSq := magnitudeSq (extractTaskFeatures historicalTask).features })
  (List.insertionSort ScoredTask.simGe
    (scored.filter (fun item => item.aboveThreshold (magnitudeSq currentFeatures)))).take 10

/-- Durations completedAt - createdAt of the kept similar tasks
(source lines 115-117; the non-null assertion on completedAt is modelled by
getD 0, and every kept task passed the truthiness filter). -/
def durationsOf (task : Task) (historicalTasks : List Task) : List ℚ :=
  (similarTasksOf task historicalTasks).map
    (fun item => item.task.completedAt.getD 0 - item.task.createdAt)

/-- Mean duration of the kept similar tasks (source line 119). -/
def avgDurationOf (task : Task) (historicalTasks : List Task) : ℚ :=
  (durationsOf task historicalTasks).sum / ((durationsOf task historicalTasks).length : ℚ)

/-- Population variance of the kept durations (source lines 120-122 compute
its square root as stdDev). -/
def varianceOf (task : Task) (historicalTasks : List Task) : ℚ :=
  ((durationsOf task historicalTasks).map
    (fun d => (d - avgDurationOf task historicalTasks) ^ 2)).sum /
    ((durationsOf task historicalTasks).length : ℚ)

/-- Advisory factor list of the similarity path (source lines 134-138). -/
def similarFactors (task : Task) (matchCount : ℕ) : List String :=
  (if task.priority ≠ 0 ∧ task.priority ≤ 3 then ["High priority"] else []) ++
  (match task.category with
    | some c => if c ≠ "" then [c ++ " task"] else []
    | none => []) ++
  (if 0 < task.subtasks.length then [toString task.subtasks.length ++ " subtasks"] else []) ++
  (if 5 ≤ matchCount then ["Strong historical data"] else [])

/-- Single-task prediction (prediction-utils predictTaskCompletionTime):
heuristic fallback when fewer than 3 completed historical tasks with timing
data exist or when none passes the similarity threshold; otherwise the mean
similar-task duration scaled by the agent speed multiplier, with the
confidence data of the kept set. -/
def predictTaskCompletionTime (task : Task) (historicalTasks : List Task)
    (agentRole : Option AgentRole) : TaskPrediction :=
  if (historicalTasks.filter hasTimingData).length < 3 then
    getHeuristicEstimate task agentRole
  else if (similarTasksOf task historicalTasks).length = 0 then
    getHeuristicEstimate task agentRole
  else
    { estimatedDuration :=
        avgDurationOf task historicalTasks * getAgentSpeedMultiplier agentRole,
      confidenceScore := .similar (similarTasksOf task historicalTasks).length
        (avgDurationOf task historicalTasks) (varianceOf task historicalTasks),
      factors := similarFactors task (similarTasksOf task historicalTasks).length,
      similarTaskCount := (similarTasksOf task historicalTasks).length }

/-- Risk classification of an objective prediction. -/
inductive RiskLevel where
  | low | medium | high
deriving DecidableEq

/-- Risk classification from the risk ratio (prediction-utils lines 239-241):
high above 0.5, medium above 0.25, low otherwise. -/
def riskLevelOf (r : ℚ) : RiskLevel :=
  if r > 0.5 then .high else if r > 0.25 then .medium else .low

/-- Numeric ordering of risk levels, the riskMap of
scenario-utils compareScenarios: low 1, medium 2, high 3. -/
def riskScore : RiskLevel → ℕ
  | .low => 1
  | .medium => 2
  | .high => 3

/-- High-risk test on one task prediction (prediction-utils line 222):
confidence below 0.5 (decided by ConfData.ltHalf) or estimated duration
above 600000 ms. -/
def isHighRisk (p : TaskPrediction) : Bool :=
  p.confidenceScore.ltHalf || decide (600000 < p.estimatedDuration)

/-- ObjectivePrediction record (prediction-utils lines 10-16); the Map from
task id to prediction is modelled as an association list with the insertion
semantics of Map.set, and the completion Date as epoch milliseconds. -/
structure ObjectivePrediction where
  totalEstimatedTime : ℚ
  completionDate : ℚ
  taskPredictions : List (String × TaskPrediction)
  riskLevel : RiskLevel
  bottlenecks : List String
deriving DecidableEq

/-- Map.set on an association list: overwrite the binding when the key is
present, otherwise append it (preserving insertion order, as a JS Map does). -/
def setAssoc (m : List (String × TaskPrediction)) (k : String) (v : TaskPrediction) :
    List (String × TaskPrediction) :=
  if m.any (fun p => p.1 == k) then m.map (fun p => if p.1 == k then (k, v) else p)
  else m ++ [(k, v)]

/-- Accumulator of the forEach loop in predictObjectiveCompletion. -/
structure ObjState where
  taskPredictions : List (String × TaskPrediction)
  totalEstimatedTime : ℚ
  highRiskTasks : ℕ
  bottlenecks : List String

/-- Body of the forEach loop in predictObjectiveCompletion (lines 216-228):
record the prediction, add its duration to the running total, and when the
task is high-risk bump the counter and, above 900000 ms, push a bottleneck. -/
def predictObjectiveStep (pool : List Task) (agentRole : Option AgentRole)
    (st : ObjState) (task : Task) : ObjState :=
  let prediction := predictTaskCompletionTime task pool agentRole
  let st :=
    { st with
      taskPredictions := setAssoc st.taskPredictions task.id prediction,
      totalEstimatedTime := st.totalEstimatedTime + prediction.estimatedDuration }
  if isHighRisk prediction then
    { st with
      highRiskTasks := st.highRiskTasks + 1,
      bottlenecks :=
        if 900000 < prediction.estimatedDuration then st.bottlenecks ++ [task.title]
        else st.bottlenecks }
  else st

/-- Objective-level prediction (prediction-utils predictObjectiveCompletion).
Date.now() is passed in as the parameter now. -/
def predictObjectiveCompletion (objective : Objective)
    (historicalObjectives : List Objective) (now : ℚ) : ObjectivePrediction :=
  let allHistoricalTasks := (historicalObjectives.map (fun obj => obj.tasks)).flatten
  let final := objective.tasks.foldl
    (predictObjectiveStep allHistoricalTasks objective.agentRole) ⟨[], 0, 0, []⟩
  let totalEstimatedTime := final.totalEstimatedTime * 1.2
  let completionDate := now + totalEstimatedTime
  let ratio := (final.highRiskTasks : ℚ) / ((Max.max objective.tasks.length 1 : ℕ) : ℚ)
  { totalEstimatedTime := totalEstimatedTime,
    completionDate := completionDate,
    taskPredictions := final.taskPredictions,
    riskLevel := riskLevelOf ratio,
    bottlenecks := final.bottlenecks.take 3 }

/-- Number of tasks of the objective whose prediction (against the flattened
historical pool) is high-risk; the count the forEach loop accumulates. -/
def objectiveHighRiskCount (objective : Objective)
    (historicalObjectives : List Objective) : ℕ :=
  objective.tasks.countP (fun t =>
    isHighRisk (predictTaskCompletionTime t
      ((historicalObjectives.map (fun obj => obj.tasks)).flatten) objective.agentRole))

/-- Duration formatter of prediction-utils (lines 253-268): day, hour,
minute, then seconds granularity; Math.floor is the integer floor and the
JavaScript remainder on the non-negative intermediate values is Int.tmod. -/
def formatDuration (milliseconds : ℚ) : String :=
  let seconds := ⌊milliseconds / 1000⌋
  let minutes := ⌊(seconds : ℚ) / 60⌋
  let hours := ⌊(minutes : ℚ) / 60⌋
  let days := ⌊(hours : ℚ) / 24⌋
  if 0 < days then toString days ++ "d " ++ toString (Int.tmod hours 24) ++ "h"
  else if 0 < hours then toString hours ++ "h " ++ toString (Int.tmod minutes 60) ++ "m"
  else if 0 < minutes then toString minutes ++ "m"
  else toString seconds ++ "s"

/-- Velocity metrics (prediction-utils calculateVelocity). The two unguarded
divisions by the window length live in JsNum ℚ, since a zero window makes
them 0/0 (NaN) or positive/0 (Infinity). -/
structure VelocityMetrics where
  tasksPerDay : JsNum ℚ
  objectivesPerWeek : JsNum ℚ
  avgTaskDuration : JsNum ℚ
deriving DecidableEq

/-- Objectives created at or after the cutoff now - days * 86400000 ms
(the filter at prediction-utils line 278). -/
def recentObjectives (objectives : List Objective) (days now : ℚ) : List Objective :=
  objectives.filter (fun obj => decide (now - days * (24 * 60 * 60 * 1000) ≤ obj.createdAt))

/-- Completed tasks with timing data across the recent objectives
(the flatMap at prediction-utils lines 279-281). -/
def recentCompletedTasks (objectives : List Objective) (days now : ℚ) : List Task :=
  ((recentObjectives objectives days now).map
    (fun obj => obj.tasks.filter hasTimingData)).flatten

/-- Velocity computation (prediction-utils calculateVelocity; the source
default for days is 7). Date.now() is passed in as the parameter now.
Only the average-duration branch guards its division by a length check. -/
def calculateVelocity (objectives : List Objective) (days now : ℚ) : VelocityMetrics :=
  let completedTasks := recentCompletedTasks objectives days now
  let completedObjectiveCount :=
    ((recentObjectives objectives days now).filter
      (fun obj => obj.status == .completed)).length
  { tasksPerDay := JsNum.div (.fin (completedTasks.length : ℚ)) (.fin days),
    objectivesPerWeek :=
      JsNum.mul (JsNum.div (.fin (completedObjectiveCount : ℚ)) (.fin days)) (.fin 7),
    avgTaskDuration :=
      if 0 < completedTasks.length then
        .fin ((completedTasks.map (fun t => t.completedAt.getD 0 - t.createdAt)).sum /
          (completedTasks.length : ℚ))
      else .fin 0 }

end PredictionUtils

namespace ScenarioUtils

open PredictionUtils

/-- Tag of a scenario modification record (scenario-utils lines 15-20). -/
inductive ModType where
  | add_task | remove_task | modify_task | change_role | change_priority | reorder_tasks
deriving DecidableEq

/-- Kind-specific payload of a modification record (the details field,
typed any in the source, holds one of these shapes). -/
inductive ModDetails where
  | taskDetail (task : Task) : ModDetails
  | priorityChange (oldPriority newPriority : ℚ) : ModDetails
  | roleChange (oldRole : String) (newRole : AgentRole) : ModDetails
  | taskIdList (taskIds : List String) : ModDetails

/-- Scenario modification record (scenario-utils ScenarioModification). -/
structure ScenarioModification where
  type : ModType
  description : String
  taskId : Option String
  details : ModDetails

/-- Store of the mutable JavaScript arrays the scenario layer aliases:
task arrays and modification-log arrays, addressed by allocation index.
Spread syntax copies records but shares array references, so array identity
is what the scenario-immutability claims are about. -/
structure Heap where
  taskArrays : List (List Task)
  modArrays : List (List ScenarioModification)

/-- Allocate a fresh task array, returning its reference. -/
def Heap.allocTasks (h : Heap) (a : List Task) : Heap × ℕ :=
  ({ h with taskArrays := h.taskArrays ++ [a] }, h.taskArrays.length)

/-- Allocate a fresh modification-log array, returning its reference. -/
def Heap.allocMods (h : Heap) (a : List ScenarioModification) : Heap × ℕ :=
  ({ h with modArrays := h.modArrays ++ [a] }, h.modArrays.length)

/-- Read a task array (an out-of-range reference reads as empty). -/
def Heap.getTasks (h : Heap) (r : ℕ) : List Task := (h.taskArrays[r]?).getD []

/-- Read a modification-log array. -/
def Heap.getMods (h : Heap) (r : ℕ) : List ScenarioModification := (h.modArrays[r]?).getD []

/-- Objective record whose tasks field is a reference into the heap. -/
structure HObjective where
  id : String
  title : String
  description : String
  tasksRef : ℕ
  status : ObjectiveStatus
  createdAt : ℚ
  aiInsights : Option String
  agentRole : Option AgentRole

/-- Value of a heap objective, as handed to the prediction engine. -/
def derefObjective (h : Heap) (o : HObjective) : Objective :=
  { id := o.id, title := o.title, description := o.description,
    tasks := h.getTasks o.tasksRef, status := o.status, createdAt := o.createdAt,
    aiInsights := o.aiInsights, agentRole := o.agentRole }

/-- Scenario record (scenario-utils Scenario); the two task arrays and the
modification log are heap references. -/
structure HScenario where
  id : String
  name : String
  description : String
  baseObjective : HObjective
  modifiedObjective : HObjective
  prediction : ObjectivePrediction
  createdAt : ℚ
  modificationsRef : ℕ

/-- Add a task to a scenario (scenario-utils addTaskToScenario): build a new
tasks array [...tasks, task], re-predict, and append an add_task record to a
new modification array; the arrays of the input scenario are never written.
Date.now() inside the re-prediction is the parameter now. -/
def addTaskToScenario (h : Heap) (scenario : HScenario) (task : Task)
    (historicalObjectives : List Objective) (now : ℚ) : Heap × HScenario :=
  let oldTasks := h.getTasks scenario.modifiedObjective.tasksRef
  let (h1, r1) := h.allocTasks (oldTasks ++ [task])
  let modifiedObjective := { scenario.modifiedObjective with tasksRef := r1 }
  let prediction :=
    predictObjectiveCompletion (derefObjective h1 modifiedObjective) historicalObjectives now
  let oldMods := h1.getMods scenario.modificationsRef
  let (h2, r2) := h1.allocMods (oldMods ++
    [{ type := .add_task, description := "Added task: " ++ task.title,
       taskId := some task.id, details := .taskDetail task }])
  (h2, { scenario with
           modifiedObjective := modifiedObjective,
           prediction := prediction,
           modificationsRef := r2 })

/-- Change the priority of a task in a scenario
(scenario-utils modifyTaskPriority). When no task has the given id the
original scenario is returned unchanged, with the heap untouched; otherwise
the task list is copied with the one task updated, the prediction is
recomputed and a change_priority record is appended. -/
def modifyTaskPriority (h : Heap) (scenario : HScenario) (taskId : String)
    (newPriority : ℚ) (historicalObjectives : List Objective) (now : ℚ) :
    Heap × HScenario :=
  let tasks := h.getTasks scenario.modifiedObjective.tasksRef
  match tasks.findIdx? (fun t => t.id == taskId) with
  | none => (h, scenario)
  | some taskIndex =>
    let oldTask := (tasks[taskIndex]?).getD
      (Task.mk "" "" .pending 0 0 none none none none [] none none)
    let oldPriority := if oldTask.priority ≠ 0 then oldTask.priority else 5
    let updatedTask := oldTask.setPriority newPriority
    let updatedTasks := tasks.set taskIndex updatedTask
    let (h1, r1) := h.allocTasks updatedTasks
    let modifiedObjective := { scenario.modifiedObjective with tasksRef := r1 }
    let prediction :=
      predictObjectiveCompletion (derefObjective h1 modifiedObjective) historicalObjectives now
    let oldMods := h1.getMods scenario.modificationsRef
    let (h2, r2) := h1.allocMods (oldMods ++
      [{ type := .change_priority,
         description := "Changed priority of \"" ++ updatedTask.title ++ "\" from " ++
           toString oldPriority ++ " to " ++ toString newPriority,
         taskId := some taskId,
         details := .priorityChange oldPriority newPriority }])
    (h2, { scenario with
             modifiedObjective := modifiedObjective,
             prediction := prediction,
             modificationsRef := r2 })

/-- Truncation toward zero of a rational, as JavaScript remainder truncates. -/
def qtrunc (q : ℚ) : ℤ := if 0 ≤ q then ⌊q⌋ else ⌈q⌉

/-- JavaScript remainder a % b on finite numbers with b non-zero:
a - b * trunc(a / b), carrying the sign of the dividend. -/
def jsMod (a b : ℚ) : ℚ := a - b * (qtrunc (a / b) : ℚ)

/-- Duration formatter of scenario-utils (lines 305-316): hours and minutes
only — there is no day branch, so durations of a day or more still render as
hours — with the sub-minute form fixed at the string under one minute. -/
def formatDuration (ms : ℚ) : String :=
  let hours := ⌊ms / (1000 * 60 * 60)⌋
  let minutes := ⌊jsMod ms (1000 * 60 * 60) / (1000 * 60)⌋
  if 0 < hours then toString hours ++ "h " ++ toString minutes ++ "m"
  else if 0 < minutes then toString minutes ++ "m"
  else "<1m"

end ScenarioUtils

namespace PredictionUtils

/-- Loop invariant of the forEach in predictObjectiveCompletion: the running
total after the loop is the initial total plus the sum of the per-task
estimated durations. -/
lemma foldl_step_total (pool : List Task) (role : Option AgentRole) :
    ∀ (ts : List Task) (st : ObjState),
      (ts.foldl (predictObjectiveStep pool role) st).totalEstimatedTime =
        st.totalEstimatedTime +
          (ts.map (fun t => (predictTaskCompletionTime t pool role).estimatedDuration)).sum
  | [], st => by simp
  | t :: ts, st => by
    rw [List.foldl_cons, foldl_step_total pool role ts]
    simp only [predictObjectiveStep, List.map_cons, List.sum_cons]
    split
    · split
      · ring
      · ring
    · ring

/-- Loop invariant of the forEach in predictObjectiveCompletion: the
high-risk counter after the loop is the initial counter plus the number of
tasks whose prediction is high-risk. -/
lemma foldl_step_highRisk (pool : List Task) (role : Option AgentRole) :
    ∀ (ts : List Task) (st : ObjState),
      (ts.foldl (predictObjectiveStep pool role) st).highRiskTasks =
        st.highRiskTasks +
          ts.countP (fun t => isHighRisk (predictTaskCompletionTime t pool role))
  | [], st => by simp
  | t :: ts, st => by
    rw [List.foldl_cons, foldl_step_highRisk pool role ts, List.countP_cons]
    simp only [predictObjectiveStep]
    split
    · next hrisk =>
      split
      · simp [hrisk]; omega
      · simp [hrisk]; omega
    · next hrisk => simp [hrisk]

/-- Closed form of the total estimated time: the sum of the per-task
estimates (against the flattened historical pool) times the fixed 1.2
sequential-overhead factor. -/
lemma predictObjective_total (objective : Objective)
    (historicalObjectives : List Objective) (now : ℚ) :
    (predictObjectiveCompletion objective historicalObjectives now).totalEstimatedTime =
      1.2 * (objective.tasks.map (fun t =>
        (predictTaskCompletionTime t
          ((historicalObjectives.map (fun obj => obj.tasks)).flatten)
          objective.agentRole).estimatedDuration)).sum := by
  unfold predictObjectiveCompletion
  simp only [foldl_step_total]
  simp
  ring

/-- Closed form of the risk level: classify the ratio of the high-risk count
to the task count (floored at one). -/
lemma predictObjective_risk (objective : Objective)
    (historicalObjectives : List Objective) (now : ℚ) :
    (predictObjectiveCompletion objective historicalObjectives now).riskLevel =
      riskLevelOf ((objectiveHighRiskCount objective historicalObjectives : ℚ) /
        ((Max.max objective.tasks.length 1 : ℕ) : ℚ)) := by
  unfold predictObjectiveCompletion objectiveHighRiskCount
  simp only [foldl_step_highRisk]
  simp

end PredictionUtils

namespace JsNum

variable {α : Type} [LinearOrderedField α]

@[simp] lemma add_fin_fin (a b : α) : add (fin a) (fin b) = fin (a + b) := rfl

@[simp] lemma add_fin_nan (a : α) : add (fin a) nan = nan := rfl

@[simp] lemma add_fin_ninf (a : α) : add (fin a) ninf = ninf := rfl

@[simp] lemma neg_fin (a : α) : neg (fin a) = fin (-a) := rfl

@[simp] lemma sub_fin_fin (a b : α) : sub (fin a) (fin b) = fin (a - b) := by
  simp [sub, neg, add, sub_eq_add_neg]

@[simp] lemma sub_fin_nan (a : α) : sub (fin a) nan = nan := rfl

@[simp] lemma sub_fin_pinf (a : α) : sub (fin a) pinf = ninf := rfl

@[simp] lemma jmax_fin_fin (a b : α) : jmax (fin a) (fin b) = fin (Max.max a b) := rfl

@[simp] lemma jmax_fin_nan (a : α) : jmax (fin a) nan = nan := rfl

@[simp] lemma jmax_fin_ninf (a : α) : jmax (fin a) ninf = fin a := rfl

lemma div_fin_fin (a b : α) (hb : b ≠ 0) : div (fin a) (fin b) = fin (a / b) := by
  simp [div, hb]

@[simp] lemma div_nan_left (x : JsNum α) : div nan x = nan := by cases x <;> rfl

@[simp] lemma div_fin_zero_of_pos (a : α) (ha : 0 < a) : div (fin a) (fin 0) = pinf := by
  simp [div, ha, ne_of_gt ha]

@[simp] lemma div_zero_zero : div (fin (0 : α)) (fin 0) = nan := by simp [div]

@[simp] lemma lt_fin_fin (a b : α) : lt (fin a) (fin b) ↔ a < b := Iff.rfl

@[simp] lemma lt_nan_left (x : JsNum α) : ¬ lt nan x := by cases x <;> exact id

@[simp] lemma le_nan_left (x : JsNum α) : ¬ le nan x := by cases x <;> exact id

@[simp] lemma le_nan_right (x : JsNum α) : ¬ le x nan := by cases x <;> exact id

@[simp] lemma le_fin_fin (a b : α) : le (fin a) (fin b) ↔ a ≤ b := Iff.rfl

end JsNum

namespace PredictionUtils

/-- Non-negativity of the variance carried by a confidence datum. -/
def ConfData.varNonneg : ConfData → Prop
  | .heuristic => True
  | .similar _ _ v => 0 ≤ v

/-- Every prediction the pipeline produces carries a non-negative variance
(it is a mean of squares). -/
lemma predict_varNonneg (task : Task) (hist : List Task) (role : Option AgentRole) :
    ((predictTaskCompletionTime task hist role).confidenceScore).varNonneg := by
  unfold predictTaskCompletionTime
  by_cases h1 : (hist.filter hasTimingData).length < 3
  · rw [if_pos h1]; exact trivial
  · rw [if_neg h1]
    by_cases h2 : (similarTasksOf task hist).length = 0
    · rw [if_pos h2]; exact trivial
    · rw [if_neg h2]
      show 0 ≤ varianceOf task hist
      unfold varianceOf
      apply div_nonneg
      · apply List.sum_nonneg
        intro x hx
        simp only [List.mem_map] at hx
        obtain ⟨d, _, rfl⟩ := hx
        positivity
      · positivity

/-- Correctness of the rational decision procedure ConfData.ltHalf with
respect to the real-valued score: given a non-negative variance, ltHalf
holds exactly when the JavaScript comparison confidenceScore < 0.5 does.
In particular a NaN score (average duration and variance both zero)
compares false, as NaN does under every JavaScript comparison. -/
lemma ConfData.ltHalf_iff_value (c : ConfData) (hc : c.varNonneg) :
    c.ltHalf = true ↔ JsNum.lt c.value (JsNum.fin (0.5 : ℝ)) := by
  cases c with
  | heuristic =>
    simp only [ConfData.ltHalf, ConfData.value, JsNum.lt_fin_fin]
    norm_num
  | similar n avg v =>
    have hv : (0:ℚ) ≤ v := hc
    have hvR : (0:ℝ) ≤ (v : ℝ) := by exact_mod_cast hv
    have hsR : (0:ℝ) ≤ min ((n : ℝ) / 10) 1 := le_min (by positivity) zero_le_one
    have hmin : ((min ((n : ℚ) / 10) 1 : ℚ) : ℝ) = min ((n : ℝ) / 10) 1 := by
      push_cast
      rfl
    simp only [ConfData.ltHalf, ConfData.value]
    rcases lt_trichotomy avg 0 with havg | havg | havg
    · -- negative average duration: the score is at least 0.5, ltHalf is false
      have havgR : ((avg : ℝ)) < 0 := by exact_mod_cast havg
      rw [if_neg (ne_of_lt havg), if_pos havg]
      rw [JsNum.div_fin_fin _ _ (ne_of_lt havgR)]
      simp only [JsNum.sub_fin_fin, JsNum.jmax_fin_fin, JsNum.add_fin_fin]
      rw [JsNum.div_fin_fin _ _ (by norm_num : (2:ℝ) ≠ 0)]
      simp only [JsNum.lt_fin_fin, Bool.false_eq_true, false_iff, not_lt]
      have ht : Real.sqrt (v : ℝ) / (avg : ℝ) ≤ 0 :=
        div_nonpos_of_nonneg_of_nonpos (Real.sqrt_nonneg _) havgR.le
      have h1 : (1:ℝ) ≤ Max.max 0 (1 - Real.sqrt (v : ℝ) / (avg : ℝ)) :=
        le_trans (by linarith) (le_max_right _ _)
      linarith
    · -- zero average duration: NaN when the variance is zero, else s/2
      subst havg
      rw [if_pos rfl]
      by_cases hv0 : v = 0
      · subst hv0
        simp only [if_pos rfl, Rat.cast_zero, Real.sqrt_zero, JsNum.div_zero_zero,
          JsNum.sub_fin_nan, JsNum.jmax_fin_nan, JsNum.add_fin_nan, JsNum.div_nan_left]
        simp
      · have hvpos : (0:ℚ) < v := lt_of_le_of_ne hv (Ne.symm hv0)
        have hsv : (0:ℝ) < Real.sqrt (v : ℝ) := Real.sqrt_pos.mpr (by exact_mod_cast hvpos)
        rw [if_neg hv0]
        rw [Rat.cast_zero, JsNum.div_fin_zero_of_pos _ hsv]
        simp only [JsNum.sub_fin_pinf, JsNum.jmax_fin_ninf, JsNum.add_fin_fin]
        rw [JsNum.div_fin_fin _ _ (by norm_num : (2:ℝ) ≠ 0)]
        simp only [JsNum.lt_fin_fin, decide_eq_true_eq]
        have hrange : (min ((n : ℝ) / 10) 1 + 0) / 2 < 0.5 ↔ min ((n : ℝ) / 10) 1 < 1 := by
          constructor <;> intro <;> linarith
        rw [hrange]
        constructor
        · intro hn
          apply min_lt_iff.mpr
          left
          rw [div_lt_one (by norm_num)]
          exact_mod_cast hn
        · intro h
          rcases min_lt_iff.mp h with h' | h'
          · have : (n : ℝ) < 10 := by
              have := (div_lt_one (show (0:ℝ) < 10 by norm_num)).mp h'
              linarith
            exact_mod_cast this
          · exact absurd h' (lt_irrefl 1)
    · -- positive average duration: the score is finite and the comparison
      -- squares out to the rational test of ltHalf
      have havgR : (0:ℝ) < (avg : ℝ) := by exact_mod_cast havg
      rw [if_neg (ne_of_gt havg), if_neg (asymm havg)]
      rw [JsNum.div_fin_fin _ _ (ne_of_gt havgR)]
      simp only [JsNum.sub_fin_fin, JsNum.jmax_fin_fin, JsNum.add_fin_fin]
      rw [JsNum.div_fin_fin _ _ (by norm_num : (2:ℝ) ≠ 0)]
      simp only [JsNum.lt_fin_fin, Bool.and_eq_true, decide_eq_true_eq]
      have hst_iff : min ((n : ℝ) / 10) 1 < Real.sqrt (v:ℝ) / (avg:ℝ) ↔
          (min ((n : ℚ) / 10) 1) ^ 2 * avg ^ 2 < v := by
        rw [lt_div_iff₀ havgR, Real.lt_sqrt (mul_nonneg hsR havgR.le), mul_pow, ← hmin]
        exact_mod_cast Iff.rfl
      have hs1_iff : min ((n : ℝ) / 10) 1 < 1 ↔ n < 10 := by
        constructor
        · intro h
          rcases min_lt_iff.mp h with h' | h'
          · have : (n : ℝ) < 10 := by
              have := (div_lt_one (show (0:ℝ) < 10 by norm_num)).mp h'
              linarith
            exact_mod_cast this
          · exact absurd h' (lt_irrefl 1)
        · intro h
          apply min_lt_iff.mpr
          left
          rw [div_lt_one (by norm_num)]
          exact_mod_cast h
      have hhalf :
          (min ((n : ℝ) / 10) 1 + Max.max 0 (1 - Real.sqrt (v:ℝ) / (avg:ℝ))) / 2 < 0.5 ↔
            Max.max 0 (1 - Real.sqrt (v:ℝ) / (avg:ℝ)) < 1 - min ((n : ℝ) / 10) 1 := by
        constructor <;> intro <;> linarith
      rw [hhalf, max_lt_iff]
      constructor
      · rintro ⟨hn, hq⟩
        have h1 : min ((n : ℝ) / 10) 1 < 1 := hs1_iff.mpr hn
        have h2 : min ((n : ℝ) / 10) 1 < Real.sqrt (v:ℝ) / (avg:ℝ) := hst_iff.mpr hq
        exact ⟨by linarith, by linarith⟩
      · rintro ⟨h0, h1⟩
        exact ⟨hs1_iff.mp (by linarith), hst_iff.mp (by linarith)⟩

/-- The high-risk test the objective loop applies agrees with the source
reading: real-valued confidence score below 0.5 (under JavaScript
comparison semantics) or estimated duration above 600000 ms. -/
lemma isHighRisk_iff (task : Task) (hist : List Task) (role : Option AgentRole) :
    isHighRisk (predictTaskCompletionTime task hist role) = true ↔
      (JsNum.lt ((predictTaskCompletionTime task hist role).confidenceScore.value)
          (JsNum.fin (0.5 : ℝ)) ∨
        600000 < (predictTaskCompletionTime task hist role).estimatedDuration) := by
  unfold isHighRisk
  rw [Bool.or_eq_true, decide_eq_true_iff,
    ConfData.ltHalf_iff_value _ (predict_varNonneg task hist role)]

/-- Monotonicity of the risk classification under the riskMap ordering. -/
lemma riskScore_riskLevelOf_mono {r1 r2 : ℚ} (h : r1 ≤ r2) :
    riskScore (riskLevelOf r1) ≤ riskScore (riskLevelOf r2) := by
  unfold riskLevelOf
  split_ifs <;> simp [riskScore] <;> linarith

/-- C1: predictObjective returns a total estimated time of 1.2 times the sum
of the per-task estimated durations (the 20 percent overhead applied exactly
once, to the total), and a risk level classifying
highRiskCount / max(taskCount, 1) — where a task counts as high-risk iff its
confidence score compares below 0.5 or its estimated duration exceeds
600000 ms — as high above 0.5, medium above 0.25, low otherwise. -/
theorem objective_total_and_risk (objective : Objective)
    (historicalObjectives : List Objective) (now : ℚ) :
    (predictObjectiveCompletion objective historicalObjectives now).totalEstimatedTime =
      1.2 * (objective.tasks.map (fun t =>
        (predictTaskCompletionTime t
          ((historicalObjectives.map (fun obj => obj.tasks)).flatten)
          objective.agentRole).estimatedDuration)).sum
    ∧ (predictObjectiveCompletion objective historicalObjectives now).riskLevel =
        riskLevelOf ((objectiveHighRiskCount objective historicalObjectives : ℚ) /
          ((Max.max objective.tasks.length 1 : ℕ) : ℚ))
    ∧ ∀ t : Task,
        isHighRisk (predictTaskCompletionTime t
            ((historicalObjectives.map (fun obj => obj.tasks)).flatten)
            objective.agentRole) = true ↔
          (JsNum.lt ((predictTaskCompletionTime t
              ((historicalObjectives.map (fun obj => obj.tasks)).flatten)
              objective.agentRole).confidenceScore.value) (JsNum.fin (0.5 : ℝ)) ∨
            600000 < (predictTaskCompletionTime t
              ((historicalObjectives.map (fun obj => obj.tasks)).flatten)
              objective.agentRole).estimatedDuration) :=
  ⟨predictObjective_total objective historicalObjectives now,
   predictObjective_risk objective historicalObjectives now,
   fun t => isHighRisk_iff t _ objective.agentRole⟩

/-- C2: with fewer than 3 completed historical tasks carrying timing data,
predictTask returns the heuristic estimate: confidence exactly 0.4, the two
fixed factor strings, and similar-task count 0. -/
theorem heuristic_fallback_trigger (task : Task) (historicalTasks : List Task)
    (agentRole : Option AgentRole)
    (hfew : (historicalTasks.filter hasTimingData).length < 3) :
    (predictTaskCompletionTime task historicalTasks agentRole).confidenceScore.value =
      JsNum.fin (0.4 : ℝ)
    ∧ (predictTaskCompletionTime task historicalTasks agentRole).factors =
        ["Heuristic estimation", "Insufficient historical data"]
    ∧ (predictTaskCompletionTime task historicalTasks agentRole).similarTaskCount = 0 := by
  unfold predictTaskCompletionTime
  rw [if_pos hfew]
  exact ⟨rfl, rfl, rfl⟩

/-- Witness for C2 at a concrete task and the empty historical corpus. -/
theorem heuristic_fallback_trigger_witness :
    ((([] : List Task).filter hasTimingData).length < 3)
    ∧ (predictTaskCompletionTime
        (Task.mk "t1" "Write the docs" .pending 5 1000 none none none none [] none none)
        [] none).factors = ["Heuristic estimation", "Insufficient historical data"] :=
  ⟨by decide,
   (heuristic_fallback_trigger
     (Task.mk "t1" "Write the docs" .pending 5 1000 none none none none [] none none)
     [] none (by decide)).2.1⟩

/-- Priority addition of the heuristic, as the claim formula names it:
(11 - priority) * 30000 ms when the priority is present (truthy, non-zero),
0 otherwise. -/
def priorityAddition (p : ℚ) : ℚ := if p ≠ 0 then (11 - p) * 30000 else 0

/-- Category factor of the heuristic, as the claim formula names it: the
fixed multiplier table (unknown names 1.3) for a present non-empty
category, factor 1 when the category is absent or empty. -/
def categoryFactor : Option String → ℚ
  | none => 1
  | some c => if c = "" then 1 else categoryMultipliers c

/-- Subtask factor of the heuristic, as the claim formula names it. -/
def subtaskFactor (subtasks : List Task) : ℚ :=
  if 0 < subtasks.length then 1 + (subtasks.length : ℚ) * 0.3 else 1

/-- C3: the heuristic estimate equals
(180000 + titleLength * 50 + priorityAddition) times the category
multiplier, the subtask factor and the agent speed multiplier; and among
present (non-zero) priorities, a lower numeric priority always yields a
strictly larger priority addition. -/
theorem heuristic_formula (task : Task) (agentRole : Option AgentRole) :
    (getHeuristicEstimate task agentRole).estimatedDuration =
      (180000 + (task.title.length : ℚ) * 50 + priorityAddition task.priority) *
        categoryFactor task.category * subtaskFactor task.subtasks *
        getAgentSpeedMultiplier agentRole
    ∧ ∀ p1 p2 : ℚ, p1 ≠ 0 → p2 ≠ 0 → p1 < p2 →
        priorityAddition p2 < priorityAddition p1 := by
  constructor
  · unfold getHeuristicEstimate priorityAddition categoryFactor subtaskFactor
    cases hcat : task.category with
    | none => split_ifs <;> ring
    | some c =>
      simp only []
      by_cases hc : c = ""
      · subst hc
        rw [if_neg (show ¬(("":String) ≠ "") from fun h => h rfl),
          if_pos (rfl : ("":String) = "")]
        split_ifs <;> ring
      · rw [if_pos (hc : c ≠ ""), if_neg hc]
        split_ifs <;> ring
  · intro p1 p2 hp1 hp2 hlt
    unfold priorityAddition
    rw [if_pos hp1, if_pos hp2]
    linarith

/-- Witness for C3: priorities 2 and 9 are both present, 2 < 9, and the
priority addition at 9 is strictly below the one at 2. -/
theorem heuristic_formula_witness :
    ((2:ℚ) ≠ 0) ∧ ((9:ℚ) ≠ 0) ∧ ((2:ℚ) < 9) ∧
      priorityAddition 9 < priorityAddition 2 :=
  ⟨by norm_num, by norm_num, by norm_num,
   (heuristic_formula
     (Task.mk "t" "x" .pending 5 1 none none none none [] none none) none).2
     2 9 (by norm_num) (by norm_num) (by norm_num)⟩

/-- Task used to exhibit the absent-category feature value: no category,
priority 5, three-character title, no subtasks. -/
def exTaskNoCategory : Task :=
  Task.mk "t5" "abc" .pending 5 1000 none none none none [] none none

/-- C5 counterexample: on a task without a category the extractor yields
categoryComplexity 3 (the ternary default of extractTaskFeatures), not the 4
the claim asserts for an absent category, so the claimed vector
[titleLength, priority, 4, subtaskCount * 2] = [3, 5, 4, 0] differs from
the actual [3, 5, 3, 0]. -/
theorem absent_category_counterexample :
    (extractTaskFeatures exTaskNoCategory).features = [3, 5, 3, 0]
    ∧ (extractTaskFeatures exTaskNoCategory).features ≠ [3, 5, 4, 0] := by
  have h : (extractTaskFeatures exTaskNoCategory).features = [3, 5, 3, 0] := by
    unfold extractTaskFeatures exTaskNoCategory
    simp only [Task.title, Task.priority, Task.category, Task.subtasks]
    norm_num [show ("abc".length) = 3 from rfl]
  refine ⟨h, ?_⟩
  rw [h]
  intro hcontra
  norm_num at hcontra

/-- Category complexity as the amended claim states it: the fixed
case-insensitive table with unknown non-empty names mapping to 4, and an
absent or empty (falsy) category mapping to 3. -/
def claimCategoryComplexity : Option String → ℚ
  | none => 3
  | some c => if c = "" then 3 else getCategoryComplexity c

/-- C5 amended: the extracted feature vector is
[titleLength, priority (5 when falsy), claimCategoryComplexity, subtaskCount * 2],
where a present unknown category maps to 4 but an absent or empty category
maps to 3; the table values and the case-insensitive lookup are checked on
every listed name. -/
theorem feature_vector_amended :
    (∀ task : Task, (extractTaskFeatures task).features =
      [ (task.title.length : ℚ),
        (if task.priority ≠ 0 then task.priority else 5),
        claimCategoryComplexity task.category,
        (task.subtasks.length : ℚ) * 2 ])
    ∧ getCategoryComplexity "research" = 4
    ∧ getCategoryComplexity "planning" = 3
    ∧ getCategoryComplexity "execution" = 6
    ∧ getCategoryComplexity "testing" = 5
    ∧ getCategoryComplexity "documentation" = 2
    ∧ getCategoryComplexity "optimization" = 7
    ∧ getCategoryComplexity "Research" = 4
    ∧ getCategoryComplexity "OPTIMIZATION" = 7
    ∧ getCategoryComplexity "shopping" = 4 := by
  refine ⟨?_, by decide, by decide, by decide, by decide, by decide, by decide,
    by decide, by decide, by decide⟩
  intro task
  unfold extractTaskFeatures claimCategoryComplexity
  cases hcat : task.category with
  | none => rfl
  | some c =>
    simp only []
    by_cases hc : c = ""
    · subst hc
      rw [if_neg (show ¬(("":String) ≠ "") from fun h => h rfl),
        if_pos (rfl : ("":String) = "")]
    · rw [if_pos (hc : c ≠ ""), if_neg hc]

/-- C6: with the task count held fixed, a larger high-risk count never
decreases the risk ratio highRiskCount / max(taskCount, 1), and the
classification never moves downward in the order low < medium < high
(the riskScore ordering low 1, medium 2, high 3). -/
theorem risk_monotonicity (o1 o2 : Objective) (h1 h2 : List Objective)
    (now1 now2 : ℚ)
    (hlen : o1.tasks.length = o2.tasks.length)
    (hcount : objectiveHighRiskCount o1 h1 ≤ objectiveHighRiskCount o2 h2) :
    (objectiveHighRiskCount o1 h1 : ℚ) / ((Max.max o1.tasks.length 1 : ℕ) : ℚ) ≤
      (objectiveHighRiskCount o2 h2 : ℚ) / ((Max.max o2.tasks.length 1 : ℕ) : ℚ)
    ∧ riskScore (predictObjectiveCompletion o1 h1 now1).riskLevel ≤
        riskScore (predictObjectiveCompletion o2 h2 now2).riskLevel := by
  have hden : (0:ℚ) < ((Max.max o2.tasks.length 1 : ℕ) : ℚ) := by
    have h : (0:ℕ) < Max.max o2.tasks.length 1 :=
      Nat.lt_of_lt_of_le Nat.zero_lt_one (le_max_right _ _)
    exact_mod_cast h
  have hratio :
      (objectiveHighRiskCount o1 h1 : ℚ) / ((Max.max o1.tasks.length 1 : ℕ) : ℚ) ≤
        (objectiveHighRiskCount o2 h2 : ℚ) / ((Max.max o2.tasks.length 1 : ℕ) : ℚ) := by
    rw [hlen]
    apply div_le_div_of_nonneg_right ?_ hden.le
    case _ => exact_mod_cast hcount
  refine ⟨hratio, ?_⟩
  rw [predictObjective_risk o1 h1 now1, predictObjective_risk o2 h2 now2]
  exact riskScore_riskLevelOf_mono hratio

/-- Division of a natural count by the zero window in JsNum: NaN for a zero
count (0/0), positive infinity otherwise. -/
lemma div_natCast_zero (n : ℕ) :
    JsNum.div (JsNum.fin (n:ℚ)) (JsNum.fin 0) =
      if n = 0 then JsNum.nan else JsNum.pinf := by
  by_cases hn : n = 0
  · subst hn
    simp [JsNum.div]
  · have h0 : (0:ℚ) < (n:ℚ) := by exact_mod_cast Nat.pos_of_ne_zero hn
    simp [JsNum.div, hn, h0, Nat.cast_eq_zero]

/-- Multiplying NaN or positive infinity by the positive literal 7. -/
lemma mul_seven_cases :
    JsNum.mul JsNum.nan (JsNum.fin (7:ℚ)) = JsNum.nan
    ∧ JsNum.mul JsNum.pinf (JsNum.fin (7:ℚ)) = JsNum.pinf := by
  constructor
  · rfl
  · simp [JsNum.mul]

/-- C10: with windowDays = 0 the velocity divisions are unguarded —
tasksPerDay and objectivesPerWeek come out NaN (when the divided count is 0)
or Infinity (otherwise), never finite — while the avgTaskDuration branch is
guarded by the length check and stays finite. -/
theorem velocity_zero_window (objectives : List Objective) (now : ℚ) :
    ((calculateVelocity objectives 0 now).tasksPerDay =
      if (recentCompletedTasks objectives 0 now).length = 0 then JsNum.nan else JsNum.pinf)
    ∧ ((calculateVelocity objectives 0 now).objectivesPerWeek =
      if ((recentObjectives objectives 0 now).filter
            (fun obj => obj.status == .completed)).length = 0
        then JsNum.nan else JsNum.pinf)
    ∧ ¬ (calculateVelocity objectives 0 now).tasksPerDay.isFinite
    ∧ ¬ (calculateVelocity objectives 0 now).objectivesPerWeek.isFinite
    ∧ (calculateVelocity objectives 0 now).avgTaskDuration.isFinite := by
  have htpd : (calculateVelocity objectives 0 now).tasksPerDay =
      if (recentCompletedTasks objectives 0 now).length = 0
        then JsNum.nan else JsNum.pinf := by
    unfold calculateVelocity
    exact div_natCast_zero _
  have hopw : (calculateVelocity objectives 0 now).objectivesPerWeek =
      if ((recentObjectives objectives 0 now).filter
            (fun obj => obj.status == .completed)).length = 0
        then JsNum.nan else JsNum.pinf := by
    unfold calculateVelocity
    show JsNum.mul (JsNum.div _ _) _ = _
    rw [div_natCast_zero]
    split
    · exact mul_seven_cases.1
    · exact mul_seven_cases.2
  refine ⟨htpd, hopw, ?_, ?_, ?_⟩
  · rw [htpd]
    split <;> exact fun h => h
  · rw [hopw]
    split <;> exact fun h => h
  · unfold calculateVelocity
    show JsNum.isFinite (if _ then _ else _)
    split <;> trivial

end PredictionUtils

namespace ScenarioUtils

open PredictionUtils

/-- Reading a task array below the allocated size is unaffected by a fresh
allocation. -/
lemma getTasks_allocTasks (h : Heap) (a : List Task) (r : ℕ)
    (hr : r < h.taskArrays.length) :
    (h.allocTasks a).1.getTasks r = h.getTasks r := by
  unfold Heap.allocTasks Heap.getTasks
  simp only []
  rw [List.getElem?_append, if_pos hr]

/-- Reading a modification array below the allocated size is unaffected by a
fresh allocation. -/
lemma getMods_allocMods (h : Heap) (a : List ScenarioModification) (r : ℕ)
    (hr : r < h.modArrays.length) :
    (h.allocMods a).1.getMods r = h.getMods r := by
  unfold Heap.allocMods Heap.getMods
  simp only []
  rw [List.getElem?_append, if_pos hr]

/-- C7: addTask never writes the arrays the input scenario references — the
task array and the modification log of scenarioA read back unchanged from
the resulting heap — while the returned scenario references a fresh array
holding the old tasks plus the appended one. -/
theorem addTask_frame (h : Heap) (s : HScenario) (task : Task)
    (hist : List Objective) (now : ℚ)
    (htr : s.modifiedObjective.tasksRef < h.taskArrays.length)
    (hmr : s.modificationsRef < h.modArrays.length) :
    ((addTaskToScenario h s task hist now).1.getTasks s.modifiedObjective.tasksRef =
      h.getTasks s.modifiedObjective.tasksRef)
    ∧ ((addTaskToScenario h s task hist now).1.getMods s.modificationsRef =
      h.getMods s.modificationsRef)
    ∧ ((addTaskToScenario h s task hist now).1.getTasks
        ((addTaskToScenario h s task hist now).2.modifiedObjective.tasksRef) =
      h.getTasks s.modifiedObjective.tasksRef ++ [task])
    ∧ (addTaskToScenario h s task hist now).2.baseObjective = s.baseObjective := by
  unfold addTaskToScenario Heap.allocTasks Heap.allocMods Heap.getTasks Heap.getMods
  simp only []
  refine ⟨?_, ?_, ?_, trivial⟩
  · rw [List.getElem?_append, if_pos htr]
  · rw [List.getElem?_append, if_pos hmr]
  · rw [List.getElem?_concat_length]
    rfl

/-- Witness for C7 on a one-task heap scenario. -/
theorem addTask_frame_witness :
    ((HScenario.mk "s1" "Base" ""
        (HObjective.mk "o1" "Obj" "" 0 .active 1 none none)
        (HObjective.mk "o1" "Obj" "" 0 .active 1 none none)
        (ObjectivePrediction.mk 0 0 [] .low []) 1 0).modifiedObjective.tasksRef <
      (Heap.mk [[Task.mk "a1" "First task" .pending 3 1000 none none none none [] none none]]
        [[]]).taskArrays.length)
    ∧ ((addTaskToScenario
        (Heap.mk [[Task.mk "a1" "First task" .pending 3 1000 none none none none [] none none]]
          [[]])
        (HScenario.mk "s1" "Base" ""
          (HObjective.mk "o1" "Obj" "" 0 .active 1 none none)
          (HObjective.mk "o1" "Obj" "" 0 .active 1 none none)
          (ObjectivePrediction.mk 0 0 [] .low []) 1 0)
        (Task.mk "b2" "Second task" .pending 7 2000 none none none none [] none none)
        [] 0).1.getTasks 0 =
      (Heap.mk [[Task.mk "a1" "First task" .pending 3 1000 none none none none [] none none]]
        [[]]).getTasks 0) :=
  ⟨by decide,
   (addTask_frame
     (Heap.mk [[Task.mk "a1" "First task" .pending 3 1000 none none none none [] none none]]
       [[]])
     (HScenario.mk "s1" "Base" ""
       (HObjective.mk "o1" "Obj" "" 0 .active 1 none none)
       (HObjective.mk "o1" "Obj" "" 0 .active 1 none none)
       (ObjectivePrediction.mk 0 0 [] .low []) 1 0)
     (Task.mk "b2" "Second task" .pending 7 2000 none none none none [] none none)
     [] 0 (by decide) (by decide)).1⟩

/-- Auxiliary: findIdx? with an arbitrary start index returns none when the
predicate holds nowhere. -/
lemma findIdxAux_none {α : Type} (p : α → Bool) :
    ∀ (l : List α) (i : ℕ), (∀ x ∈ l, p x = false) → List.findIdx? p l i = none := by
  intro l
  induction l with
  | nil => intro i _; rfl
  | cons a as ih =>
    intro i hall
    rw [List.findIdx?]
    rw [hall a (List.mem_cons_self a as)]
    exact ih (i + 1) (fun x hx => hall x (List.mem_cons_of_mem a hx))

/-- C8: modifyPriority with a task id matching no task in the referenced
array returns the heap and the scenario exactly as given — no new array, no
re-prediction stored, no modification-log entry. -/
theorem modifyPriority_missing_id_noop (h : Heap) (s : HScenario) (taskId : String)
    (newPriority : ℚ) (hist : List Objective) (now : ℚ)
    (habsent : ∀ t ∈ h.getTasks s.modifiedObjective.tasksRef, t.id ≠ taskId) :
    modifyTaskPriority h s taskId newPriority hist now = (h, s) := by
  unfold modifyTaskPriority
  have hfind : (h.getTasks s.modifiedObjective.tasksRef).findIdx?
      (fun t => t.id == taskId) = none := by
    apply findIdxAux_none
    intro t ht
    simpa using habsent t ht
  simp only [hfind]

/-- Witness for C8 with an id absent from the one-task array. -/
theorem modifyPriority_noop_witness :
    (∀ t ∈ (Heap.mk
        [[Task.mk "a1" "First task" .pending 3 1000 none none none none [] none none]]
        [[]]).getTasks
          (HScenario.mk "s1" "Base" ""
            (HObjective.mk "o1" "Obj" "" 0 .active 1 none none)
            (HObjective.mk "o1" "Obj" "" 0 .active 1 none none)
            (ObjectivePrediction.mk 0 0 [] .low []) 1 0).modifiedObjective.tasksRef,
        t.id ≠ "zz")
    ∧ modifyTaskPriority
        (Heap.mk
          [[Task.mk "a1" "First task" .pending 3 1000 none none none none [] none none]]
          [[]])
        (HScenario.mk "s1" "Base" ""
          (HObjective.mk "o1" "Obj" "" 0 .active 1 none none)
          (HObjective.mk "o1" "Obj" "" 0 .active 1 none none)
          (ObjectivePrediction.mk 0 0 [] .low []) 1 0)
        "zz" 7 [] 0 =
      ((Heap.mk
          [[Task.mk "a1" "First task" .pending 3 1000 none none none none [] none none]]
          [[]]),
        (HScenario.mk "s1" "Base" ""
          (HObjective.mk "o1" "Obj" "" 0 .active 1 none none)
          (HObjective.mk "o1" "Obj" "" 0 .active 1 none none)
          (ObjectivePrediction.mk 0 0 [] .low []) 1 0)) := by
  refine ⟨by decide, ?_⟩
  exact modifyPriority_missing_id_noop _ _ "zz" 7 [] 0 (by decide)

end ScenarioUtils

namespace PredictionUtils

/-- Completed historical task with title "abc", created at 1000 and
completed at the given time (concrete corpora for evaluation). -/
def mkHistTask (id : String) (compAt : ℚ) : Task :=
  Task.mk id "abc" .completed 5 1000 (some compAt) none none none [] none none

/-- Three-task historical corpus of identical-feature completed tasks. -/
def mkHist (compAt : ℚ) : List Task :=
  [mkHistTask "h1" compAt, mkHistTask "h2" compAt, mkHistTask "h3" compAt]

/-- Pending task with the same feature vector as the corpus tasks. -/
def mkPendingTask (id : String) : Task :=
  Task.mk id "abc" .pending 5 1000 none none none none [] none none

lemma hasTiming_mkHistTask (id : String) (compAt : ℚ) (hc : compAt ≠ 0) :
    hasTimingData (mkHistTask id compAt) = true := by
  show (true && decide ((some compAt).getD 0 ≠ 0) && decide ((1000:ℚ) ≠ 0)) = true
  simp [hc]

lemma mkHist_filter (compAt : ℚ) (hc : compAt ≠ 0) :
    (mkHist compAt).filter hasTimingData = mkHist compAt := by
  unfold mkHist
  rw [List.filter_cons_of_pos (hasTiming_mkHistTask "h1" compAt hc),
    List.filter_cons_of_pos (hasTiming_mkHistTask "h2" compAt hc),
    List.filter_cons_of_pos (hasTiming_mkHistTask "h3" compAt hc),
    List.filter_nil]

lemma mkPending_features (id : String) :
    (extractTaskFeatures (mkPendingTask id)).features = [3, 5, 3, 0] := by
  unfold extractTaskFeatures mkPendingTask
  simp only [Task.title, Task.priority, Task.category, Task.subtasks]
  norm_num [show ("abc".length) = 3 from rfl]

lemma mkHistTask_features (id : String) (compAt : ℚ) :
    (extractTaskFeatures (mkHistTask id compAt)).features = [3, 5, 3, 0] := by
  unfold extractTaskFeatures mkHistTask
  simp only [Task.title, Task.priority, Task.category, Task.subtasks]
  norm_num [show ("abc".length) = 3 from rfl]

lemma dot_feat : dotProduct [3, 5, 3, 0] [3, 5, 3, 0] = (43:ℚ) := by
  norm_num [dotProduct, List.zipWith, List.sum_cons, List.sum_nil]

lemma mag_feat : magnitudeSq [3, 5, 3, 0] = (43:ℚ) := by
  norm_num [magnitudeSq, List.map_cons, List.map_nil, List.sum_cons, List.sum_nil]

lemma simGe_43 (t1 t2 : Task) : ScoredTask.simGe ⟨t1, 43, 43⟩ ⟨t2, 43, 43⟩ :=
  le_refl _

lemma aboveThreshold_43 (t : Task) :
    ScoredTask.aboveThreshold ⟨t, 43, 43⟩ 43 = true := by
  unfold ScoredTask.aboveThreshold
  norm_num

lemma mkHist_similar (id : String) (compAt : ℚ) (hc : compAt ≠ 0) :
    similarTasksOf (mkPendingTask id) (mkHist compAt) =
      [⟨mkHistTask "h1" compAt, 43, 43⟩, ⟨mkHistTask "h2" compAt, 43, 43⟩,
        ⟨mkHistTask "h3" compAt, 43, 43⟩] := by
  unfold similarTasksOf
  rw [mkHist_filter compAt hc]
  rw [show mkHist compAt = [mkHistTask "h1" compAt, mkHistTask "h2" compAt,
    mkHistTask "h3" compAt] from rfl]
  simp only [List.map_cons, List.map_nil, mkPending_features, mkHistTask_features,
    dot_feat, mag_feat]
  simp only [List.filter_cons, List.filter_nil, aboveThreshold_43, if_pos]
  simp only [List.insertionSort, List.orderedInsert, simGe_43, if_true]
  rfl

lemma mkHist_durations (id : String) (compAt : ℚ) (hc : compAt ≠ 0) :
    durationsOf (mkPendingTask id) (mkHist compAt) =
      [compAt - 1000, compAt - 1000, compAt - 1000] := by
  unfold durationsOf
  rw [mkHist_similar id compAt hc]
  simp [mkHistTask, Task.completedAt, Task.createdAt]

lemma mkHist_avg (id : String) (compAt : ℚ) (hc : compAt ≠ 0) :
    avgDurationOf (mkPendingTask id) (mkHist compAt) = compAt - 1000 := by
  unfold avgDurationOf
  rw [mkHist_durations id compAt hc]
  norm_num
  ring

lemma mkHist_var (id : String) (compAt : ℚ) (hc : compAt ≠ 0) :
    varianceOf (mkPendingTask id) (mkHist compAt) = 0 := by
  unfold varianceOf
  rw [mkHist_durations id compAt hc, mkHist_avg id compAt hc]
  norm_num

lemma mkHist_predict (id : String) (compAt : ℚ) (hc : compAt ≠ 0) :
    predictTaskCompletionTime (mkPendingTask id) (mkHist compAt) none =
      ⟨compAt - 1000, ConfData.similar 3 (compAt - 1000) 0, [], 3⟩ := by
  unfold predictTaskCompletionTime
  rw [if_neg (by rw [mkHist_filter compAt hc]; norm_num [mkHist]),
    if_neg (by rw [mkHist_similar id compAt hc]; norm_num)]
  have hlen : (similarTasksOf (mkPendingTask id) (mkHist compAt)).length = 3 := by
    rw [mkHist_similar id compAt hc]
    rfl
  rw [mkHist_avg id compAt hc, mkHist_var id compAt hc, hlen]
  have hfac : similarFactors (mkPendingTask id) 3 = [] := by
    unfold similarFactors mkPendingTask
    simp only [Task.priority, Task.category, Task.subtasks]
    norm_num
  rw [hfac,
    (by norm_num [getAgentSpeedMultiplier, Option.getD] :
      getAgentSpeedMultiplier none = 1),
    mul_one]

lemma magnitudeSq_nonneg (f : List ℚ) : 0 ≤ magnitudeSq f := by
  unfold magnitudeSq
  apply List.sum_nonneg
  intro x hx
  simp only [List.mem_map] at hx
  obtain ⟨d, _, rfl⟩ := hx
  exact mul_self_nonneg d

/-- Correctness of the squared threshold test against the real-valued
cosine similarity: for equal-length feature vectors, aboveThreshold decides
the source comparison similarity > 0.3. -/
lemma aboveThreshold_iff_similarity (t : Task) (f1 f2 : List ℚ)
    (hlen : f1.length = f2.length) :
    (ScoredTask.aboveThreshold ⟨t, dotProduct f1 f2, magnitudeSq f1⟩
        (magnitudeSq f2) = true)
      ↔ (3/10 : ℝ) < calculateSimilarity f1 f2 := by
  have h1 := magnitudeSq_nonneg f1
  have h2 := magnitudeSq_nonneg f2
  unfold ScoredTask.aboveThreshold calculateSimilarity
  rw [if_neg (by simp [hlen])]
  simp only [Bool.and_eq_true, decide_eq_true_eq]
  by_cases hz1 : magnitudeSq f1 = 0
  · have hsq : Real.sqrt ((magnitudeSq f1 : ℚ) : ℝ) = 0 := by
      rw [hz1]
      push_cast
      exact Real.sqrt_zero
    rw [if_pos (Or.inl hsq)]
    constructor
    · rintro ⟨⟨⟨ha, -⟩, -⟩, -⟩
      exact absurd hz1 ha
    · intro h
      norm_num at h
  · by_cases hz2 : magnitudeSq f2 = 0
    · have hsq : Real.sqrt ((magnitudeSq f2 : ℚ) : ℝ) = 0 := by
        rw [hz2]
        push_cast
        exact Real.sqrt_zero
      rw [if_pos (Or.inr hsq)]
      constructor
      · rintro ⟨⟨⟨-, hb⟩, -⟩, -⟩
        exact absurd hz2 hb
      · intro h
        norm_num at h
    · have ha : (0:ℚ) < magnitudeSq f1 := lt_of_le_of_ne h1 (Ne.symm hz1)
      have hb : (0:ℚ) < magnitudeSq f2 := lt_of_le_of_ne h2 (Ne.symm hz2)
      have haR : (0:ℝ) < ((magnitudeSq f1 : ℚ) : ℝ) := by exact_mod_cast ha
      have hbR : (0:ℝ) < ((magnitudeSq f2 : ℚ) : ℝ) := by exact_mod_cast hb
      have hs1 : Real.sqrt ((magnitudeSq f1 : ℚ) : ℝ) ≠ 0 :=
        ne_of_gt (Real.sqrt_pos.mpr haR)
      have hs2 : Real.sqrt ((magnitudeSq f2 : ℚ) : ℝ) ≠ 0 :=
        ne_of_gt (Real.sqrt_pos.mpr hbR)
      rw [if_neg (by push_neg; exact ⟨hs1, hs2⟩)]
      rw [← Real.sqrt_mul haR.le]
      have hm : (0:ℝ) <
          Real.sqrt (((magnitudeSq f1 : ℚ) : ℝ) * ((magnitudeSq f2 : ℚ) : ℝ)) :=
        Real.sqrt_pos.mpr (by positivity)
      rw [lt_div_iff₀ hm]
      constructor
      · rintro ⟨⟨⟨-, -⟩, hd⟩, hq⟩
        have hdR : (0:ℝ) < ((dotProduct f1 f2 : ℚ) : ℝ) := by exact_mod_cast hd
        have hqR : (9:ℝ) * (((magnitudeSq f1 : ℚ) : ℝ) * ((magnitudeSq f2 : ℚ) : ℝ)) <
            100 * ((dotProduct f1 f2 : ℚ) : ℝ) ^ 2 := by exact_mod_cast hq
        have hsq : Real.sqrt (((magnitudeSq f1 : ℚ) : ℝ) * ((magnitudeSq f2 : ℚ) : ℝ)) <
            (10/3) * ((dotProduct f1 f2 : ℚ) : ℝ) := by
          rw [Real.sqrt_lt' (by positivity)]
          nlinarith
        linarith
      · intro h
        have hm0 := Real.sqrt_nonneg
          (((magnitudeSq f1 : ℚ) : ℝ) * ((magnitudeSq f2 : ℚ) : ℝ))
        have hdR : (0:ℝ) < ((dotProduct f1 f2 : ℚ) : ℝ) := by nlinarith
        have hsq : Real.sqrt (((magnitudeSq f1 : ℚ) : ℝ) * ((magnitudeSq f2 : ℚ) : ℝ)) <
            (10/3) * ((dotProduct f1 f2 : ℚ) : ℝ) := by linarith
        have hab := (Real.sqrt_lt' (by positivity)).mp hsq
        refine ⟨⟨⟨hz1, hz2⟩, by exact_mod_cast hdR⟩, ?_⟩
        have hfin : (9:ℝ) * (((magnitudeSq f1 : ℚ) : ℝ) * ((magnitudeSq f2 : ℚ) : ℝ)) <
            100 * ((dotProduct f1 f2 : ℚ) : ℝ) ^ 2 := by nlinarith
        exact_mod_cast hfin

/-- Correctness of the squared sort comparison against the real-valued
similarities, on entries that passed the positivity threshold: simGe holds
exactly when the similarity of the first entry (dot product over the
product of root magnitudes, sharing the current squared magnitude b) is at
least that of the second. -/
lemma simGe_iff_similarity (t1 t2 : Task) (d1 a1 d2 a2 b : ℚ)
    (hd1 : 0 < d1) (hd2 : 0 < d2) (ha1 : 0 < a1) (ha2 : 0 < a2) (hb : 0 < b) :
    ScoredTask.simGe ⟨t1, d1, a1⟩ ⟨t2, d2, a2⟩ ↔
      (d2 : ℝ) / (Real.sqrt (a2 : ℝ) * Real.sqrt (b : ℝ)) ≤
        (d1 : ℝ) / (Real.sqrt (a1 : ℝ) * Real.sqrt (b : ℝ)) := by
  have ha1R : (0:ℝ) < ((a1 : ℚ) : ℝ) := by exact_mod_cast ha1
  have ha2R : (0:ℝ) < ((a2 : ℚ) : ℝ) := by exact_mod_cast ha2
  have hbR : (0:ℝ) < ((b : ℚ) : ℝ) := by exact_mod_cast hb
  have hs1 : (0:ℝ) < Real.sqrt (a1 : ℝ) := Real.sqrt_pos.mpr ha1R
  have hs2 : (0:ℝ) < Real.sqrt (a2 : ℝ) := Real.sqrt_pos.mpr ha2R
  have hsb : (0:ℝ) < Real.sqrt (b : ℝ) := Real.sqrt_pos.mpr hbR
  have hd1R : (0:ℝ) < ((d1 : ℚ) : ℝ) := by exact_mod_cast hd1
  have hd2R : (0:ℝ) < ((d2 : ℚ) : ℝ) := by exact_mod_cast hd2
  rw [div_le_div_iff (by positivity) (by positivity)]
  unfold ScoredTask.simGe
  constructor
  · intro hq
    have hqR : ((d2 : ℚ) : ℝ) ^ 2 * ((a1 : ℚ) : ℝ) ≤
        ((d1 : ℚ) : ℝ) ^ 2 * ((a2 : ℚ) : ℝ) := by exact_mod_cast hq
    have hcore : ((d2 : ℚ) : ℝ) * Real.sqrt (a1 : ℝ) ≤
        ((d1 : ℚ) : ℝ) * Real.sqrt (a2 : ℝ) := by
      have hsum : (0:ℝ) < ((d1 : ℚ) : ℝ) * Real.sqrt (a2 : ℝ) +
          ((d2 : ℚ) : ℝ) * Real.sqrt (a1 : ℝ) := by positivity
      nlinarith [Real.sq_sqrt ha1R.le, Real.sq_sqrt ha2R.le, hqR, hsum]
    have h3 := mul_le_mul_of_nonneg_right hcore hsb.le
    nlinarith [h3]
  · intro hR
    have hcancel : ((d2 : ℚ) : ℝ) * Real.sqrt (a1 : ℝ) ≤
        ((d1 : ℚ) : ℝ) * Real.sqrt (a2 : ℝ) := by
      have := mul_le_mul_of_nonneg_right hR (le_of_lt (by positivity : (0:ℝ) < 1))
      nlinarith [hsb]
    have hsq : (((d2 : ℚ) : ℝ) * Real.sqrt (a1 : ℝ)) ^ 2 ≤
        (((d1 : ℚ) : ℝ) * Real.sqrt (a2 : ℝ)) ^ 2 := by
      apply pow_le_pow_left (by positivity) hcancel
    have e1 := Real.sq_sqrt ha1R.le
    have e2 := Real.sq_sqrt ha2R.le
    have : ((d2 : ℚ) : ℝ) ^ 2 * ((a1 : ℚ) : ℝ) ≤
        ((d1 : ℚ) : ℝ) ^ 2 * ((a2 : ℚ) : ℝ) := by nlinarith
    exact_mod_cast this

/-- C4: the confidence bound fails on the zero-duration corpus. On the task
with title "abc" against three completed historical tasks of identical
features whose completedAt equals createdAt, the similarity path computes
avgDuration = 0 and stdDev = 0, so varianceConfidence is max(0, 1 - 0/0) =
NaN and the returned confidence score is NaN — for which neither
0 <= confidenceScore nor confidenceScore <= 1 holds under JavaScript
comparison semantics, contradicting the claimed bounds (and the 0-1 range
documented on the TaskPrediction interface). -/
theorem confidence_nan_bug :
    (predictTaskCompletionTime (mkPendingTask "t4") (mkHist 1000)
        none).confidenceScore.value = JsNum.nan
    ∧ ¬ (JsNum.le (JsNum.fin 0)
          ((predictTaskCompletionTime (mkPendingTask "t4") (mkHist 1000)
            none).confidenceScore.value)
        ∧ JsNum.le
          ((predictTaskCompletionTime (mkPendingTask "t4") (mkHist 1000)
            none).confidenceScore.value)
          (JsNum.fin 1)) := by
  have hconf : (predictTaskCompletionTime (mkPendingTask "t4") (mkHist 1000)
      none).confidenceScore = ConfData.similar 3 0 0 := by
    rw [mkHist_predict "t4" 1000 (by norm_num)]
    norm_num
  have hval : (predictTaskCompletionTime (mkPendingTask "t4") (mkHist 1000)
      none).confidenceScore.value = JsNum.nan := by
    rw [hconf]
    unfold ConfData.value
    norm_num
  refine ⟨hval, ?_⟩
  rw [hval]
  rintro ⟨h0, -⟩
  exact JsNum.le_nan_right _ h0

/-- Two-task objective whose predictions against the duration-1000 corpus
are all low-risk. -/
def exObjLow : Objective :=
  ⟨"o1", "Obj low", "", [mkPendingTask "r1", mkPendingTask "r2"], .active, 1, none, none⟩

/-- Two-task objective predicted with an empty corpus: both tasks fall to
the heuristic (confidence 0.4 < 0.5), so both are high-risk. -/
def exObjHigh : Objective :=
  ⟨"o2", "Obj high", "", [mkPendingTask "r1", mkPendingTask "r2"], .active, 1, none, none⟩

/-- Historical objective carrying the duration-1000 completed corpus. -/
def exHistObj : Objective :=
  ⟨"h0", "Hist", "", mkHist 2000, .completed, 1, none, none⟩

lemma exObjLow_count : objectiveHighRiskCount exObjLow [exHistObj] = 0 := by
  unfold objectiveHighRiskCount
  have hpool : (([exHistObj].map (fun obj => obj.tasks)).flatten) = mkHist 2000 := by
    simp [exHistObj]
  simp only [hpool, show exObjLow.tasks = [mkPendingTask "r1", mkPendingTask "r2"] from rfl,
    show exObjLow.agentRole = none from rfl]
  rw [List.countP_cons, List.countP_cons, List.countP_nil]
  simp only [mkHist_predict "r1" 2000 (by norm_num), mkHist_predict "r2" 2000 (by norm_num)]
  norm_num [isHighRisk, ConfData.ltHalf]

lemma exObjHigh_count : objectiveHighRiskCount exObjHigh [] = 2 := by
  unfold objectiveHighRiskCount
  have hpred : ∀ id : String,
      predictTaskCompletionTime (mkPendingTask id) [] none =
        getHeuristicEstimate (mkPendingTask id) none := by
    intro id
    unfold predictTaskCompletionTime
    rw [if_pos (by decide)]
  simp only [show (([] : List Objective).map (fun obj => obj.tasks)).flatten = [] from rfl,
    show exObjHigh.tasks = [mkPendingTask "r1", mkPendingTask "r2"] from rfl,
    show exObjHigh.agentRole = none from rfl]
  rw [List.countP_cons, List.countP_cons, List.countP_nil]
  simp only [hpred]
  norm_num [isHighRisk, ConfData.ltHalf, getHeuristicEstimate]

/-- Witness for C6: the low-risk objective (0 high-risk tasks of 2) scores
no higher than the all-heuristic objective (2 high-risk tasks of 2). -/
theorem risk_monotonicity_witness :
    (exObjLow.tasks.length = exObjHigh.tasks.length)
    ∧ objectiveHighRiskCount exObjLow [exHistObj] ≤ objectiveHighRiskCount exObjHigh []
    ∧ riskScore (predictObjectiveCompletion exObjLow [exHistObj] 0).riskLevel ≤
        riskScore (predictObjectiveCompletion exObjHigh [] 0).riskLevel := by
  have hcnt : objectiveHighRiskCount exObjLow [exHistObj] ≤
      objectiveHighRiskCount exObjHigh [] := by
    rw [exObjLow_count, exObjHigh_count]
    norm_num
  exact ⟨rfl, hcnt, (risk_monotonicity exObjLow exObjHigh [exHistObj] [] 0 0 rfl hcnt).2⟩

end PredictionUtils

/-- Lower bound for the floor of a quotient by a positive constant. -/
lemma le_floor_div (x k : ℚ) (n : ℤ) (hk : 0 < k) (h : (n:ℚ) * k ≤ x) :
    n ≤ ⌊x / k⌋ :=
  Int.le_floor.mpr ((le_div_iff₀ hk).mpr h)

/-- Upper bound for the floor of a quotient by a positive constant. -/
lemma floor_div_lt (x k : ℚ) (n : ℤ) (hk : 0 < k) (h : x < (n:ℚ) * k) :
    ⌊x / k⌋ < n :=
  Int.floor_lt.mpr ((div_lt_iff₀ hk).mpr h)

/-- The JavaScript remainder leaves a value unchanged when it already lies
in the interval from 0 (inclusive) to the modulus (exclusive): the truncated
quotient is 0 there. -/
lemma jsMod_eq_self (a b : ℚ) (ha : 0 ≤ a) (hb : 0 < b) (hab : a < b) :
    ScenarioUtils.jsMod a b = a := by
  have h0 : (0:ℚ) ≤ a / b := div_nonneg ha hb.le
  have h1 : a / b < 1 := (div_lt_one hb).mpr hab
  have hq : ScenarioUtils.qtrunc (a / b) = 0 := by
    unfold ScenarioUtils.qtrunc
    rw [if_pos h0]
    exact Int.floor_eq_zero_iff.mpr (Set.mem_Ico.mpr ⟨h0, h1⟩)
  unfold ScenarioUtils.jsMod
  rw [hq]
  push_cast
  ring

/-- C9 counterexample: the scenario-utils duration formatter renders one
full day as "24h 0m" — it has no day branch — where the claim requires the
day form "1d 0h" for every duration of at least one day. -/
theorem day_format_counterexample :
    ScenarioUtils.formatDuration 86400000 = "24h 0m"
    ∧ ScenarioUtils.formatDuration 86400000 ≠ "1d 0h" := by
  have hh : (⌊(86400000:ℚ) / (1000 * 60 * 60)⌋ : ℤ) = 24 := by norm_num
  have hm : (⌊ScenarioUtils.jsMod 86400000 (1000 * 60 * 60) / (1000 * 60)⌋ : ℤ) = 0 := by
    norm_num [ScenarioUtils.jsMod, ScenarioUtils.qtrunc]
  have hfmt : ScenarioUtils.formatDuration 86400000 = "24h 0m" := by
    unfold ScenarioUtils.formatDuration
    rw [hh, hm, if_pos (by norm_num : (0:ℤ) < 24)]
    rfl
  exact ⟨hfmt, by rw [hfmt]; decide⟩

/-- C9 amended: the prediction-utils formatter follows the claimed ladder —
a day component (positive day count) at one day and above, hours and
minutes below a day, minutes below an hour, seconds below a minute — while
the scenario-utils formatter never produces a day component: at one hour
and above it renders hours and minutes (with at least 24 hours at one day
and above), at one minute and above but below an hour only minutes, and
below one minute the fixed sub-minute string. -/
theorem formatDuration_amended :
    (∀ ms : ℚ, 0 ≤ ms →
      (86400000 ≤ ms → ∃ d hrs : ℤ, 0 < d ∧
        PredictionUtils.formatDuration ms = toString d ++ "d " ++ toString hrs ++ "h")
      ∧ (3600000 ≤ ms → ms < 86400000 → ∃ hrs mins : ℤ, 0 < hrs ∧
        PredictionUtils.formatDuration ms = toString hrs ++ "h " ++ toString mins ++ "m")
      ∧ (60000 ≤ ms → ms < 3600000 → ∃ mins : ℤ, 0 < mins ∧
        PredictionUtils.formatDuration ms = toString mins ++ "m")
      ∧ (ms < 60000 → ∃ secs : ℤ,
        PredictionUtils.formatDuration ms = toString secs ++ "s"))
    ∧ (∀ ms : ℚ, 0 ≤ ms →
      (3600000 ≤ ms → ∃ hrs mins : ℤ, 0 < hrs ∧
        ScenarioUtils.formatDuration ms = toString hrs ++ "h " ++ toString mins ++ "m")
      ∧ (86400000 ≤ ms → ∃ hrs mins : ℤ, 24 ≤ hrs ∧
        ScenarioUtils.formatDuration ms = toString hrs ++ "h " ++ toString mins ++ "m")
      ∧ (60000 ≤ ms → ms < 3600000 → ∃ mins : ℤ, 0 < mins ∧
        ScenarioUtils.formatDuration ms = toString mins ++ "m")
      ∧ (ms < 60000 → ScenarioUtils.formatDuration ms = "<1m")) := by
  constructor
  · intro ms hms
    have hsec0 : (0:ℤ) ≤ ⌊ms / 1000⌋ :=
      le_floor_div ms 1000 0 (by norm_num) (by push_cast; linarith)
    have hmin0 : (0:ℤ) ≤ ⌊(⌊ms / 1000⌋ : ℚ) / 60⌋ :=
      le_floor_div _ 60 0 (by norm_num) (by push_cast; exact_mod_cast hsec0)
    have hhr0 : (0:ℤ) ≤ ⌊(⌊(⌊ms / 1000⌋ : ℚ) / 60⌋ : ℚ) / 60⌋ :=
      le_floor_div _ 60 0 (by norm_num) (by push_cast; exact_mod_cast hmin0)
    refine ⟨?_, ?_, ?_, ?_⟩
    · intro hday
      have hsec : (86400:ℤ) ≤ ⌊ms / 1000⌋ :=
        le_floor_div ms 1000 86400 (by norm_num) (by push_cast; linarith)
      have hminu : (1440:ℤ) ≤ ⌊(⌊ms / 1000⌋ : ℚ) / 60⌋ :=
        le_floor_div _ 60 1440 (by norm_num)
          (by
            have : ((86400:ℤ):ℚ) ≤ (⌊ms / 1000⌋ : ℚ) := by exact_mod_cast hsec
            push_cast at this ⊢
            linarith)
      have hhour : (24:ℤ) ≤ ⌊(⌊(⌊ms / 1000⌋ : ℚ) / 60⌋ : ℚ) / 60⌋ :=
        le_floor_div _ 60 24 (by norm_num)
          (by
            have : ((1440:ℤ):ℚ) ≤ (⌊(⌊ms / 1000⌋ : ℚ) / 60⌋ : ℚ) := by exact_mod_cast hminu
            push_cast at this ⊢
            linarith)
      have hdpos : (1:ℤ) ≤ ⌊(⌊(⌊(⌊ms / 1000⌋ : ℚ) / 60⌋ : ℚ) / 60⌋ : ℚ) / 24⌋ :=
        le_floor_div _ 24 1 (by norm_num)
          (by
            have : ((24:ℤ):ℚ) ≤ (⌊(⌊(⌊ms / 1000⌋ : ℚ) / 60⌋ : ℚ) / 60⌋ : ℚ) := by
              exact_mod_cast hhour
            push_cast at this ⊢
            linarith)
      refine ⟨⌊(⌊(⌊(⌊ms / 1000⌋ : ℚ) / 60⌋ : ℚ) / 60⌋ : ℚ) / 24⌋,
        Int.tmod ⌊(⌊(⌊ms / 1000⌋ : ℚ) / 60⌋ : ℚ) / 60⌋ 24, by omega, ?_⟩
      unfold PredictionUtils.formatDuration
      rw [if_pos (by omega : (0:ℤ) < ⌊(⌊(⌊(⌊ms / 1000⌋ : ℚ) / 60⌋ : ℚ) / 60⌋ : ℚ) / 24⌋)]
    · intro hlo hhi
      have hsec : (3600:ℤ) ≤ ⌊ms / 1000⌋ :=
        le_floor_div ms 1000 3600 (by norm_num) (by push_cast; linarith)
      have hminu : (60:ℤ) ≤ ⌊(⌊ms / 1000⌋ : ℚ) / 60⌋ :=
        le_floor_div _ 60 60 (by norm_num)
          (by
            have : ((3600:ℤ):ℚ) ≤ (⌊ms / 1000⌋ : ℚ) := by exact_mod_cast hsec
            push_cast at this ⊢
            linarith)
      have hhour : (1:ℤ) ≤ ⌊(⌊(⌊ms / 1000⌋ : ℚ) / 60⌋ : ℚ) / 60⌋ :=
        le_floor_div _ 60 1 (by norm_num)
          (by
            have : ((60:ℤ):ℚ) ≤ (⌊(⌊ms / 1000⌋ : ℚ) / 60⌋ : ℚ) := by exact_mod_cast hminu
            push_cast at this ⊢
            linarith)
      have hsecU : ⌊ms / 1000⌋ < (86400:ℤ) :=
        floor_div_lt ms 1000 86400 (by norm_num) (by push_cast; linarith)
      have hminU : ⌊(⌊ms / 1000⌋ : ℚ) / 60⌋ < (1440:ℤ) :=
        floor_div_lt _ 60 1440 (by norm_num)
          (by
            have : (⌊ms / 1000⌋ : ℚ) < ((86400:ℤ):ℚ) := by exact_mod_cast hsecU
            push_cast at this ⊢
            linarith)
      have hhrU : ⌊(⌊(⌊ms / 1000⌋ : ℚ) / 60⌋ : ℚ) / 60⌋ < (24:ℤ) :=
        floor_div_lt _ 60 24 (by norm_num)
          (by
            have : (⌊(⌊ms / 1000⌋ : ℚ) / 60⌋ : ℚ) < ((1440:ℤ):ℚ) := by exact_mod_cast hminU
            push_cast at this ⊢
            linarith)
      have hdU : ⌊(⌊(⌊(⌊ms / 1000⌋ : ℚ) / 60⌋ : ℚ) / 60⌋ : ℚ) / 24⌋ < (1:ℤ) :=
        floor_div_lt _ 24 1 (by norm_num)
          (by
            have : (⌊(⌊(⌊ms / 1000⌋ : ℚ) / 60⌋ : ℚ) / 60⌋ : ℚ) < ((24:ℤ):ℚ) := by
              exact_mod_cast hhrU
            push_cast at this ⊢
            linarith)
      refine ⟨⌊(⌊(⌊ms / 1000⌋ : ℚ) / 60⌋ : ℚ) / 60⌋,
        Int.tmod ⌊(⌊ms / 1000⌋ : ℚ) / 60⌋ 60, by omega, ?_⟩
      unfold PredictionUtils.formatDuration
      rw [if_neg (by omega : ¬ (0:ℤ) < ⌊(⌊(⌊(⌊ms / 1000⌋ : ℚ) / 60⌋ : ℚ) / 60⌋ : ℚ) / 24⌋),
        if_pos (by omega : (0:ℤ) < ⌊(⌊(⌊ms / 1000⌋ : ℚ) / 60⌋ : ℚ) / 60⌋)]
    · intro hlo hhi
      have hminu : (1:ℤ) ≤ ⌊(⌊ms / 1000⌋ : ℚ) / 60⌋ :=
        le_floor_div _ 60 1 (by norm_num)
          (by
            have hsec : (60:ℤ) ≤ ⌊ms / 1000⌋ :=
              le_floor_div ms 1000 60 (by norm_num) (by push_cast; linarith)
            have : ((60:ℤ):ℚ) ≤ (⌊ms / 1000⌋ : ℚ) := by exact_mod_cast hsec
            push_cast at this ⊢
            linarith)
      have hsecU : ⌊ms / 1000⌋ < (3600:ℤ) :=
        floor_div_lt ms 1000 3600 (by norm_num) (by push_cast; linarith)
      have hminU : ⌊(⌊ms / 1000⌋ : ℚ) / 60⌋ < (60:ℤ) :=
        floor_div_lt _ 60 60 (by norm_num)
          (by
            have : (⌊ms / 1000⌋ : ℚ) < ((3600:ℤ):ℚ) := by exact_mod_cast hsecU
            push_cast at this ⊢
            linarith)
      have hhrU : ⌊(⌊(⌊ms / 1000⌋ : ℚ) / 60⌋ : ℚ) / 60⌋ < (1:ℤ) :=
        floor_div_lt _ 60 1 (by norm_num)
          (by
            have : (⌊(⌊ms / 1000⌋ : ℚ) / 60⌋ : ℚ) < ((60:ℤ):ℚ) := by exact_mod_cast hminU
            push_cast at this ⊢
            linarith)
      have hdU : ⌊(⌊(⌊(⌊ms / 1000⌋ : ℚ) / 60⌋ : ℚ) / 60⌋ : ℚ) / 24⌋ < (1:ℤ) :=
        floor_div_lt _ 24 1 (by norm_num)
          (by
            have : (⌊(⌊(⌊ms / 1000⌋ : ℚ) / 60⌋ : ℚ) / 60⌋ : ℚ) < ((1:ℤ):ℚ) := by
              exact_mod_cast hhrU
            push_cast at this ⊢
            linarith [hhr0])
      refine ⟨⌊(⌊ms / 1000⌋ : ℚ) / 60⌋, by omega, ?_⟩
      unfold PredictionUtils.formatDuration
      rw [if_neg (by omega : ¬ (0:ℤ) < ⌊(⌊(⌊(⌊ms / 1000⌋ : ℚ) / 60⌋ : ℚ) / 60⌋ : ℚ) / 24⌋),
        if_neg (by omega : ¬ (0:ℤ) < ⌊(⌊(⌊ms / 1000⌋ : ℚ) / 60⌋ : ℚ) / 60⌋),
        if_pos (by omega : (0:ℤ) < ⌊(⌊ms / 1000⌋ : ℚ) / 60⌋)]
    · intro hhi
      have hsecU : ⌊ms / 1000⌋ < (60:ℤ) :=
        floor_div_lt ms 1000 60 (by norm_num) (by push_cast; linarith)
      have hminU : ⌊(⌊ms / 1000⌋ : ℚ) / 60⌋ < (1:ℤ) :=
        floor_div_lt _ 60 1 (by norm_num)
          (by
            have : (⌊ms / 1000⌋ : ℚ) < ((60:ℤ):ℚ) := by exact_mod_cast hsecU
            push_cast at this ⊢
            linarith)
      have hhrU : ⌊(⌊(⌊ms / 1000⌋ : ℚ) / 60⌋ : ℚ) / 60⌋ < (1:ℤ) :=
        floor_div_lt _ 60 1 (by norm_num)
          (by
            have : (⌊(⌊ms / 1000⌋ : ℚ) / 60⌋ : ℚ) < ((1:ℤ):ℚ) := by exact_mod_cast hminU
            push_cast at this ⊢
            linarith [hmin0])
      have hdU : ⌊(⌊(⌊(⌊ms / 1000⌋ : ℚ) / 60⌋ : ℚ) / 60⌋ : ℚ) / 24⌋ < (1:ℤ) :=
        floor_div_lt _ 24 1 (by norm_num)
          (by
            have : (⌊(⌊(⌊ms / 1000⌋ : ℚ) / 60⌋ : ℚ) / 60⌋ : ℚ) < ((1:ℤ):ℚ) := by
              exact_mod_cast hhrU
            push_cast at this ⊢
            linarith [hhr0])
      refine ⟨⌊ms / 1000⌋, ?_⟩
      unfold PredictionUtils.formatDuration
      rw [if_neg (by omega : ¬ (0:ℤ) < ⌊(⌊(⌊(⌊ms / 1000⌋ : ℚ) / 60⌋ : ℚ) / 60⌋ : ℚ) / 24⌋),
        if_neg (by omega : ¬ (0:ℤ) < ⌊(⌊(⌊ms / 1000⌋ : ℚ) / 60⌋ : ℚ) / 60⌋),
        if_neg (by omega : ¬ (0:ℤ) < ⌊(⌊ms / 1000⌋ : ℚ) / 60⌋)]
  · intro ms hms
    refine ⟨?_, ?_, ?_, ?_⟩
    · intro hlo
      have hhour : (1:ℤ) ≤ ⌊ms / (1000 * 60 * 60)⌋ :=
        le_floor_div ms (1000 * 60 * 60) 1 (by norm_num) (by push_cast; linarith)
      refine ⟨⌊ms / (1000 * 60 * 60)⌋,
        ⌊ScenarioUtils.jsMod ms (1000 * 60 * 60) / (1000 * 60)⌋, by omega, ?_⟩
      unfold ScenarioUtils.formatDuration
      rw [if_pos (by omega : (0:ℤ) < ⌊ms / (1000 * 60 * 60)⌋)]
    · intro hday
      have hhour : (24:ℤ) ≤ ⌊ms / (1000 * 60 * 60)⌋ :=
        le_floor_div ms (1000 * 60 * 60) 24 (by norm_num) (by push_cast; linarith)
      refine ⟨⌊ms / (1000 * 60 * 60)⌋,
        ⌊ScenarioUtils.jsMod ms (1000 * 60 * 60) / (1000 * 60)⌋, hhour, ?_⟩
      unfold ScenarioUtils.formatDuration
      rw [if_pos (by omega : (0:ℤ) < ⌊ms / (1000 * 60 * 60)⌋)]
    · intro hlo hhi
      have hmod : ScenarioUtils.jsMod ms (1000 * 60 * 60) = ms :=
        jsMod_eq_self ms (1000 * 60 * 60) hms (by norm_num) (by linarith)
      have hhrU : ⌊ms / (1000 * 60 * 60)⌋ < (1:ℤ) :=
        floor_div_lt ms (1000 * 60 * 60) 1 (by norm_num) (by push_cast; linarith)
      have hhr0 : (0:ℤ) ≤ ⌊ms / (1000 * 60 * 60)⌋ :=
        le_floor_div ms (1000 * 60 * 60) 0 (by norm_num) (by push_cast; linarith)
      have hmin1 : (1:ℤ) ≤ ⌊ScenarioUtils.jsMod ms (1000 * 60 * 60) / (1000 * 60)⌋ := by
        rw [hmod]
        exact le_floor_div ms (1000 * 60) 1 (by norm_num) (by push_cast; linarith)
      refine ⟨⌊ScenarioUtils.jsMod ms (1000 * 60 * 60) / (1000 * 60)⌋, by omega, ?_⟩
      unfold ScenarioUtils.formatDuration
      rw [if_neg (by omega : ¬ (0:ℤ) < ⌊ms / (1000 * 60 * 60)⌋),
        if_pos (by omega :
          (0:ℤ) < ⌊ScenarioUtils.jsMod ms (1000 * 60 * 60) / (1000 * 60)⌋)]
    · intro hhi
      have hmod : ScenarioUtils.jsMod ms (1000 * 60 * 60) = ms :=
        jsMod_eq_self ms (1000 * 60 * 60) hms (by norm_num) (by linarith)
      have hhrU : ⌊ms / (1000 * 60 * 60)⌋ < (1:ℤ) :=
        floor_div_lt ms (1000 * 60 * 60) 1 (by norm_num) (by push_cast; linarith)
      have hhr0 : (0:ℤ) ≤ ⌊ms / (1000 * 60 * 60)⌋ :=
        le_floor_div ms (1000 * 60 * 60) 0 (by norm_num) (by push_cast; linarith)
      have hminU : ⌊ScenarioUtils.jsMod ms (1000 * 60 * 60) / (1000 * 60)⌋ < (1:ℤ) := by
        rw [hmod]
        exact floor_div_lt ms (1000 * 60) 1 (by norm_num) (by push_cast; linarith)
      have hmin0 : (0:ℤ) ≤ ⌊ScenarioUtils.jsMod ms (1000 * 60 * 60) / (1000 * 60)⌋ := by
        rw [hmod]
        exact le_floor_div ms (1000 * 60) 0 (by norm_num) (by push_cast; linarith)
      unfold ScenarioUtils.formatDuration
      rw [if_neg (by omega : ¬ (0:ℤ) < ⌊ms / (1000 * 60 * 60)⌋),
        if_neg (by omega :
          ¬ (0:ℤ) < ⌊ScenarioUtils.jsMod ms (1000 * 60 * 60) / (1000 * 60)⌋)]

/-- Witness for C9 at concrete inputs: 25 hours gives a day form from the
prediction-utils helper and an hour form with at least 24 hours from the
scenario-utils helper; two hours gives the latter an hour form, two minutes
a minute form, and thirty seconds the fixed sub-minute string. -/
theorem formatDuration_amended_witness :
    (∃ d hrs : ℤ, 0 < d ∧
        PredictionUtils.formatDuration 90000000 = toString d ++ "d " ++ toString hrs ++ "h")
    ∧ (∃ hrs mins : ℤ, 24 ≤ hrs ∧
        ScenarioUtils.formatDuration 90000000 = toString hrs ++ "h " ++ toString mins ++ "m")
    ∧ (∃ hrs mins : ℤ, 0 < hrs ∧
        ScenarioUtils.formatDuration 7200000 = toString hrs ++ "h " ++ toString mins ++ "m")
    ∧ (∃ mins : ℤ, 0 < mins ∧
        ScenarioUtils.formatDuration 120000 = toString mins ++ "m")
    ∧ ScenarioUtils.formatDuration 30000 = "<1m" :=
  ⟨(formatDuration_amended.1 90000000 (by norm_num)).1 (by norm_num),
   (formatDuration_amended.2 90000000 (by norm_num)).2.1 (by norm_num),
   (formatDuration_amended.2 7200000 (by norm_num)).1 (by norm_num),
   (formatDuration_amended.2 120000 (by norm_num)).2.2.1 (by norm_num) (by norm_num),
   (formatDuration_amended.2 30000 (by norm_num)).2.2.2 (by norm_num)⟩

end BabyG
